import Mathlib

/-!
Verification development for the `bga-carcassonne` tournament manager.

The Go sources are shallowly embedded:
* Go strings are modelled as `List Char` (`GoStr`); the byte/rune distinction
  is immaterial for the properties below, which only involve ASCII data.
* `encoding/csv` record reading (single line, default configuration) is
  modelled by `csvScan`/`readCSVLine`.
* `strconv.Atoi` is modelled by `goAtoi` (64-bit range check included).
* Fallible Go functions returning `(T, error)` become `Except ParseError T`;
  the Go convention of returning `nil` together with the error is captured by
  the `Except.error` constructor carrying no payload of type `T`.
* The Bubble Tea models (`FixtureModel`, `TournamentConfirmationModel`,
  `DateTimePickerModel`) become pure state-transition functions; `tea.Cmd`
  values become the inductive `Cmd`.  External collaborators (BGA client,
  clipboard, the third-party datetime-picker widget) are abstracted into
  explicit environment records, as the spec treats them as external.
-/

namespace Carca

/-- Go strings, modelled as lists of characters. -/
abbrev GoStr := List Char

/-- `time.Time` values are only created, stored and compared by the embedded
code, never inspected; we model them as an opaque totally-ordered stamp. -/
abbrev GoTime := Int

/-! ## Go `strings` package primitives (translated from their documented
semantics, as used by `internal/fixtures/parser.go` and the CLI models) -/

/-- Go `strings.HasPrefix`. -/
def goHasPre : GoStr → GoStr → Bool
  | [], _ => true
  | _ :: _, [] => false
  | a :: as, b :: bs => a == b && goHasPre as bs

/-- Go `strings.HasSuffix`. -/
def goHasSuf (pat s : GoStr) : Bool :=
  goHasPre pat.reverse s.reverse

/-- Go `strings.Contains`. -/
def goContains (sub : GoStr) : GoStr → Bool
  | [] => sub.isEmpty
  | c :: rest => goHasPre sub (c :: rest) || goContains sub rest

/-- Go `strings.TrimSuffix`. -/
def goTrimSuf (s pat : GoStr) : GoStr :=
  if goHasSuf pat s then s.take (s.length - pat.length) else s

/-- The white-space class of Go `unicode.IsSpace` (the Unicode White_Space
property), by code point. -/
def isSpaceGo (c : Char) : Bool :=
  let n := c.toNat
  (0x9 <= n && n <= 0xD) || n == 0x20 || n == 0x85 || n == 0xA0 ||
  n == 0x1680 || (0x2000 <= n && n <= 0x200A) ||
  n == 0x2028 || n == 0x2029 || n == 0x202F || n == 0x205F || n == 0x3000

/-- Go `strings.TrimSpace`. -/
def goTrimSpace (s : GoStr) : GoStr :=
  ((s.dropWhile isSpaceGo).reverse.dropWhile isSpaceGo).reverse

/-- The scanning loop of Go `strings.Split`, with an explicit step budget so
that the recursion is structural (and hence kernel-computable); every step
consumes at least one character, so any budget of at least `s.length` yields
the split (`goSplitFuel_congr`/`goSplit_eq` below). -/
def goSplitFuel (sep : GoStr) : Nat → GoStr → List GoStr
  | _, [] => [[]]
  | 0, c :: rest => [c :: rest]
  | fuel + 1, c :: rest =>
    match sep with
    | [] => [c :: rest]
    | s0 :: sep' =>
      if goHasPre (s0 :: sep') (c :: rest) then
        [] :: goSplitFuel (s0 :: sep') fuel (rest.drop sep'.length)
      else
        match goSplitFuel (s0 :: sep') fuel rest with
        | [] => [[c]]
        | h :: t => (c :: h) :: t

/-- Go `strings.Split` for a non-empty separator (the only way the sources
use it).  An empty separator falls back to the whole string in one piece. -/
def goSplit (sep : GoStr) (s : GoStr) : List GoStr :=
  goSplitFuel sep s.length s

/-- Go `strings.Join`. -/
def goJoin : List GoStr → GoStr → GoStr
  | [], _ => []
  | [x], _ => x
  | x :: xs, sep => x ++ sep ++ goJoin xs sep

/-! ## Go `strconv.Atoi` -/

/-- Decimal digit recognition for `goAtoi`. -/
def goDigits : GoStr → Option Nat
  | [] => none
  | cs =>
    if cs.all (fun c => '0' ≤ c && c ≤ '9') then
      some (cs.foldl (fun n c => 10 * n + (c.toNat - '0'.toNat)) 0)
    else
      none

/-- Go `strconv.Atoi` on a 64-bit platform: optional sign, decimal digits,
error (modelled as `none`) on syntax or range violations. -/
def goAtoi (s : GoStr) : Option Int :=
  match s with
  | [] => none
  | '+' :: rest => do
    let n ← goDigits rest
    if n ≤ 2 ^ 63 - 1 then some (n : Int) else none
  | '-' :: rest => do
    let n ← goDigits rest
    if n ≤ 2 ^ 63 then some (-(n : Int)) else none
  | _ => do
    let n ← goDigits s
    if n ≤ 2 ^ 63 - 1 then some (n : Int) else none

/-! ## Go `encoding/csv`: reading one record from a single line
(default configuration: comma separator, strict quoting) -/

/-- Errors of the modelled `csv.Reader.Read`. -/
inductive CSVErr where
  | eof
  | bareQuote
  | quote
  deriving DecidableEq

/-- Scanner state for `csvScan`. -/
inductive CSVState where
  | fieldStart
  | inBare
  | inQuoted
  | afterQuote
  deriving DecidableEq

/-- One-line CSV record scanner: field separation by `,`, quoted fields with
`""` escapes, `ErrBareQuote` for a quote inside an unquoted field and
`ErrQuote` for a malformed or unterminated quoted field, as in Go
`encoding/csv` with `LazyQuotes == false`. -/
def csvScan (st : CSVState) (cur : GoStr) (acc : List GoStr) :
    GoStr → Except CSVErr (List GoStr)
  | [] =>
    match st with
    | .fieldStart => .ok (acc ++ [[]])
    | .inBare => .ok (acc ++ [cur])
    | .inQuoted => .error .quote
    | .afterQuote => .ok (acc ++ [cur])
  | c :: rest =>
    match st with
    | .fieldStart =>
      if c = '"' then csvScan .inQuoted [] acc rest
      else if c = ',' then csvScan .fieldStart [] (acc ++ [[]]) rest
      else csvScan .inBare [c] acc rest
    | .inBare =>
      if c = ',' then csvScan .fieldStart [] (acc ++ [cur]) rest
      else if c = '"' then .error .bareQuote
      else csvScan .inBare (cur ++ [c]) acc rest
    | .inQuoted =>
      if c = '"' then csvScan .afterQuote cur acc rest
      else csvScan .inQuoted (cur ++ [c]) acc rest
    | .afterQuote =>
      if c = '"' then csvScan .inQuoted (cur ++ ['"']) acc rest
      else if c = ',' then csvScan .fieldStart [] (acc ++ [cur]) rest
      else .error .quote

/-- Go `csv.NewReader(strings.NewReader(line)).Read()` for a line that contains
no newline: an empty line yields `io.EOF`. -/
def readCSVLine (line : GoStr) : Except CSVErr (List GoStr) :=
  if line.isEmpty then .error .eof else csvScan .fieldStart [] [] line

/-! ## `internal/fixtures/parser.go`: data model -/

/-- `fixtures.Match` (field names and order as in the Go struct). -/
structure Match where
  HomePlayer : GoStr
  AwayPlayer : GoStr
  DateTime : GoStr
  BGALink : GoStr
  ID : Int
  HomeScore : Int
  AwayScore : Int
  Played : Bool
  deriving DecidableEq

/-- `fixtures.Round`. -/
structure Round where
  DateRange : GoStr
  Matches : List Match
  Number : Int
  deriving DecidableEq

/-- `fixtures.Division`. -/
structure Division where
  Name : GoStr
  Rounds : List Round
  deriving DecidableEq

/-- Structured parse errors: one constructor per `fmt.Errorf` site of
`parser.go`, with the wrapped (`%w`) error as payload. -/
inductive ParseError where
  | csvLine (e : CSVErr)
  | fieldCount (n : Nat)
  | invalidMatchID
  | invalidHomeScore
  | invalidAwayScore
  | roundTooShort
  | roundHeader (e : CSVErr)
  | invalidHeaderFormat
  | matchLine (lineNo : Nat) (e : ParseError)
  | roundFailed (e : ParseError)
  | finalRoundFailed (e : ParseError)
  deriving DecidableEq

/-! ## `internal/fixtures/parser.go`: parsing -/

/-- `fixtures.ParseMatch`. -/
def ParseMatch (csvLine : GoStr) : Except ParseError Match :=
  match readCSVLine csvLine with
  | .error e => .error (.csvLine e)
  | .ok records =>
    if records.length < 10 then .error (.fieldCount records.length)
    else
      match goAtoi (records.getD 0 []) with
      | none => .error .invalidMatchID
      | some id =>
        match goAtoi (records.getD 2 []) with
        | none => .error .invalidHomeScore
        | some homeScore =>
          match goAtoi (records.getD 3 []) with
          | none => .error .invalidAwayScore
          | some awayScore =>
            let played := records.getD 8 [] == "1".toList
            .ok {
              ID := id
              HomePlayer := records.getD 1 []
              HomeScore := homeScore
              AwayScore := awayScore
              AwayPlayer := records.getD 4 []
              DateTime := records.getD 5 []
              BGALink := records.getD 6 []
              Played := played
            }

/-- The match-collecting loop of `fixtures.ParseRound` (lines after the
header, 1-based indices as in the Go loop). -/
def parseRoundMatches (i : Nat) : List GoStr → Except ParseError (List Match)
  | [] => .ok []
  | l :: ls =>
    let line := goTrimSpace l
    if line.isEmpty then parseRoundMatches (i + 1) ls
    else
      match ParseMatch line with
      | .error e => .error (.matchLine (i + 1) e)
      | .ok m =>
        match parseRoundMatches (i + 1) ls with
        | .error e => .error e
        | .ok ms => .ok (m :: ms)

/-- `fixtures.ParseRound`. -/
def ParseRound (csvData : GoStr) : Except ParseError Round :=
  match goSplit "\n".toList csvData with
  | [] => .error .roundTooShort
  | [_] => .error .roundTooShort
  | l0 :: restLines =>
    match readCSVLine l0 with
    | .error e => .error (.roundHeader e)
    | .ok headerRecord =>
      if headerRecord.length < 6 then .error .invalidHeaderFormat
      else
        let f1 := headerRecord.getD 1 []
        let roundNumber : Int :=
          if 6 < f1.length ∧ goHasPre "Fecha ".toList f1 then
            match goAtoi (goTrimSpace (f1.drop 6)) with
            | some num => num
            | none => 1
          else 1
        let dateRange := headerRecord.getD 5 []
        match parseRoundMatches 1 restLines with
        | .error e => .error e
        | .ok ms => .ok { Number := roundNumber, DateRange := dateRange, Matches := ms }

/-- The sentinel prefix that starts a new round block. -/
def isHeaderLine (t : GoStr) : Bool :=
  goHasPre "Duelo,Fecha".toList t

/-- The separator-filler pattern (a run of ten commas). -/
def tenCommas : GoStr := ",,,,,,,,,,".toList

/-- The line-scanning loop of `fixtures.ParseDivision`: `cur` is
`currentRoundLines`, `acc` the rounds accumulated so far. -/
def divScan (cur : List GoStr) (acc : List Round) :
    List GoStr → Except ParseError (List Round)
  | [] =>
    if cur.isEmpty then .ok acc
    else
      match ParseRound (goJoin cur "\n".toList) with
      | .error e => .error (.finalRoundFailed e)
      | .ok r => .ok (acc ++ [r])
  | l :: rest =>
    let line := goTrimSpace l
    if isHeaderLine line then
      if cur.isEmpty then divScan [line] acc rest
      else
        match ParseRound (goJoin cur "\n".toList) with
        | .error e => .error (.roundFailed e)
        | .ok r => divScan [line] (acc ++ [r]) rest
    else if line.isEmpty || goContains tenCommas line then
      divScan cur acc rest
    else if cur.isEmpty then
      divScan cur acc rest
    else
      divScan (cur ++ [line]) acc rest

/-- `fixtures.ParseDivision`. -/
def ParseDivision (csvData : GoStr) : Except ParseError Division :=
  match divScan [] [] (goSplit "\n".toList csvData) with
  | .error e => .error e
  | .ok rounds => .ok { Name := [], Rounds := rounds }

/-- The filename-driven division-name extraction inlined in
`fixtures.ParseFixtureFile` (the part after the successful `ParseDivision`).
Returns the empty string when the filename does not match the hard-coded
`"<...> - <...> - <code>-Fixture.csv"` shape. -/
def divisionNameFromFilename (filename : GoStr) : GoStr :=
  if goContains " - ".toList filename && goContains "-Fixture.csv".toList filename then
    let parts := goSplit " - ".toList filename
    if parts.length ≥ 3 then
      let namePart := parts.getLastD []
      if goHasSuf "-Fixture.csv".toList namePart then
        goTrimSuf namePart "-Fixture.csv".toList
      else []
    else []
  else []

/-- `fixtures.ParseFixtureFile`, with the file contents passed explicitly
(the `os.ReadFile` call is the only I/O of the function). -/
def ParseFixtureFile (filename contents : GoStr) : Except ParseError Division :=
  match ParseDivision contents with
  | .error e => .error e
  | .ok division => .ok { division with Name := divisionNameFromFilename filename }


/-! ## `internal/cli`: messages (`tea.Msg` values used by the fixture screen) -/

/-- `cli.DateTimeSelectedMsg`. -/
structure DateTimeSelectedMsg where
  DateTime : GoTime
  HomePlayer : GoStr
  AwayPlayer : GoStr
  Division : GoStr
  RoundNumber : Int
  MatchNumber : Int
  MatchID : Int
  deriving DecidableEq

/-- `cli.TournamentConfirmedMsg`. -/
structure TournamentConfirmedMsg where
  DateTime : GoTime
  HomePlayer : GoStr
  AwayPlayer : GoStr
  Division : GoStr
  RoundNumber : Int
  MatchNumber : Int
  MatchID : Int
  deriving DecidableEq

/-- `cli.EditDateTimeMsg`. -/
structure EditDateTimeMsg where
  DateTime : GoTime
  HomePlayer : GoStr
  AwayPlayer : GoStr
  Division : GoStr
  RoundNumber : Int
  MatchNumber : Int
  MatchID : Int
  deriving DecidableEq

/-- `cli.createTournamentMsg`. -/
structure CreateTournamentMsg where
  homePlayer : GoStr
  awayPlayer : GoStr
  matchID : Int
  roundNum : Int
  deriving DecidableEq

/-- `cli.createTournamentMsgWithDateTime`. -/
structure CreateTournamentMsgWithDateTime where
  dateTime : GoTime
  homePlayer : GoStr
  awayPlayer : GoStr
  division : GoStr
  matchID : Int
  roundNum : Int
  matchNumber : Int
  deriving DecidableEq

/-- `cli.tournamentCreatedMsg`. -/
structure TournamentCreatedMsg where
  link : GoStr
  error : GoStr
  tournamentID : Int
  matchID : Int
  roundNum : Int
  success : Bool
  deriving DecidableEq

/-- The keys a `tea.KeyMsg` can carry, as far as the fixture screen
distinguishes them (`msg.Type` plus `msg.Runes`). -/
inductive Key where
  | ctrlC | left | right | pgUp | pgDown | esc | down | up | enter
  | runes (s : GoStr)
  | otherKey (name : GoStr)
  deriving DecidableEq

/-- `tea.KeyMsg.String()`. -/
def keyString : Key → GoStr
  | .ctrlC => "ctrl+c".toList
  | .left => "left".toList
  | .right => "right".toList
  | .pgUp => "pgup".toList
  | .pgDown => "pgdown".toList
  | .esc => "esc".toList
  | .down => "down".toList
  | .up => "up".toList
  | .enter => "enter".toList
  | .runes s => s
  | .otherKey n => n

/-- The `tea.Msg` values that can reach `FixtureModel.Update`. -/
inductive TeaMsg where
  | key (k : Key)
  | clearStatus
  | createTournament (m : CreateTournamentMsg)
  | createTournamentWithDateTime (m : CreateTournamentMsgWithDateTime)
  | tournamentCreated (m : TournamentCreatedMsg)
  | dateTimeSelected (m : DateTimeSelectedMsg)
  | dateTimePickerCanceled
  | tournamentConfirmed (m : TournamentConfirmedMsg)
  | tournamentConfirmationCanceled
  | editDateTime (m : EditDateTimeMsg)
  | dateTimePickerConfirmed
  | quitMsg
  | backToMenu
  | otherMsg
  deriving DecidableEq

/-- `tea.Cmd` values produced by the embedded models.  `tick n` is
`tea.Tick(time.Second*n, ...)` delivering `clearStatusMsg`; `emit` is a
closure immediately returning a message; `submit`/`submitWithDateTime` are
the deferred network closures of `handleCreateTournamentResponse` /
`handleCreateTournamentWithDateTime`; `pickerInit` is the third-party
widget's `Init` command. -/
inductive Cmd where
  | tick (seconds : Nat)
  | emit (msg : TeaMsg)
  | submit (req : CreateTournamentMsg)
  | submitWithDateTime (req : CreateTournamentMsgWithDateTime)
  | quit
  | pickerInit
  deriving DecidableEq

/-- Go `fmt.Sprintf("%d", i)`. -/
def goItoa (i : Int) : GoStr := (toString i).toList

/-! ## `internal/cli`: external collaborators

The spec (§1, §6) treats the BGA client, the credential provider, the
clipboard and the third-party datetime-picker widget as external
collaborators; they enter the embedding as explicit environment data. -/

/-- Environment for the synchronous part of the models: the clipboard
outcome and the behaviour of the external datetime-picker widget, whose
state is observed by the sources only through `Time()` and is therefore
modelled by that observation. -/
structure Env where
  clipboardOk : Bool
  pickerInitTime : GoTime
  pickerStep : GoTime → TeaMsg → GoTime × Option Cmd

/-- `bga.TournamentResponse` (the fields the fixture flow reads). -/
structure TournamentResponse where
  Success : Bool
  TournamentID : Int
  Link : GoStr
  Error : GoStr
  deriving DecidableEq

/-- Outcome data of the external collaborators used by the deferred
submission closures: credential acquisition, login, contest creation. -/
structure SubmitEnv where
  isAuthenticated : Bool
  credentials : Except GoStr (GoStr × GoStr)
  loginErr : Option GoStr
  createResult : Except GoStr TournamentResponse

/-! ## `internal/cli/datetime_picker.go` -/

/-- `cli.DateTimePickerModel` (style/title/instruction fields omitted:
presentation-only).  `picker` is the external widget state, modelled by its
`Time()` observation. -/
structure DateTimePickerModel where
  picker : GoTime
  selectedTime : GoTime
  homePlayer : GoStr
  awayPlayer : GoStr
  division : GoStr
  roundNumber : Int
  matchNumber : Int
  matchID : Int
  confirmed : Bool
  canceled : Bool
  deriving DecidableEq

/-- `cli.NewDateTimePickerModel`. -/
def NewDateTimePickerModel (env : Env) (homePlayer awayPlayer division : GoStr)
    (roundNumber matchNumber matchID : Int) : DateTimePickerModel :=
  { picker := env.pickerInitTime
    selectedTime := 0
    homePlayer := homePlayer
    awayPlayer := awayPlayer
    division := division
    roundNumber := roundNumber
    matchNumber := matchNumber
    matchID := matchID
    confirmed := false
    canceled := false }

/-- The command wrapper at the end of `DateTimePickerModel.Update`: a
`tea.QuitMsg` produced by the widget is turned into the internal
`dateTimePickerConfirmedMsg`. -/
def wrapPickerCmd : Cmd → Cmd
  | .quit => .emit .dateTimePickerConfirmed
  | .emit .quitMsg => .emit .dateTimePickerConfirmed
  | c => c

/-- The fall-through tail of `DateTimePickerModel.Update`: forward the
message to the external widget and wrap its command. -/
def pickerFall (env : Env) (m : DateTimePickerModel) (msg : TeaMsg) :
    DateTimePickerModel × Option Cmd :=
  let (p', cmd) := env.pickerStep m.picker msg
  let m' := { m with picker := p' }
  match cmd with
  | none => (m', none)
  | some c => (m', some (wrapPickerCmd c))

/-- `cli.DateTimePickerModel.Update`. -/
def DateTimePickerModel.update (env : Env) (m : DateTimePickerModel)
    (msg : TeaMsg) : DateTimePickerModel × Option Cmd :=
  match msg with
  | .dateTimePickerConfirmed =>
    let m' := { m with confirmed := true, selectedTime := m.picker }
    (m', some (.emit (.dateTimeSelected {
      DateTime := m'.selectedTime
      HomePlayer := m'.homePlayer
      AwayPlayer := m'.awayPlayer
      Division := m'.division
      RoundNumber := m'.roundNumber
      MatchNumber := m'.matchNumber
      MatchID := m'.matchID })))
  | .key k =>
    if keyString k == "esc".toList then
      ({ m with canceled := true }, some (.emit .dateTimePickerCanceled))
    else pickerFall env m msg
  | _ => pickerFall env m msg

/-! ## `internal/cli/tournament_confirmation.go` -/

/-- `cli.TournamentConfirmationModel` (style/timezone/title fields omitted:
presentation-only). -/
structure TournamentConfirmationModel where
  selectedTime : GoTime
  championshipName : GoStr
  tournamentName : GoStr
  division : GoStr
  homePlayer : GoStr
  awayPlayer : GoStr
  roundNumber : Int
  matchNumber : Int
  matchID : Int
  confirmed : Bool
  canceled : Bool
  deriving DecidableEq

/-- `cli.NewTournamentConfirmationModel`. -/
def NewTournamentConfirmationModel (homePlayer awayPlayer division : GoStr)
    (roundNumber matchNumber matchID : Int) (selectedTime : GoTime) :
    TournamentConfirmationModel :=
  { selectedTime := selectedTime
    championshipName := "Division ".toList ++ division ++ " - 1era Temporada".toList
    tournamentName := goItoa roundNumber ++ " Fecha - Duelo ".toList ++
      goItoa matchNumber ++ " - ".toList ++ homePlayer ++ " vs ".toList ++ awayPlayer
    division := division
    homePlayer := homePlayer
    awayPlayer := awayPlayer
    roundNumber := roundNumber
    matchNumber := matchNumber
    matchID := matchID
    confirmed := false
    canceled := false }

/-- `cli.TournamentConfirmationModel.Update`. -/
def TournamentConfirmationModel.update (m : TournamentConfirmationModel)
    (msg : TeaMsg) : TournamentConfirmationModel × Option Cmd :=
  match msg with
  | .key k =>
    if keyString k == "enter".toList then
      ({ m with confirmed := true }, some (.emit (.tournamentConfirmed {
        HomePlayer := m.homePlayer
        AwayPlayer := m.awayPlayer
        Division := m.division
        RoundNumber := m.roundNumber
        MatchNumber := m.matchNumber
        MatchID := m.matchID
        DateTime := m.selectedTime })))
    else if keyString k == "esc".toList then
      ({ m with canceled := true }, some (.emit .tournamentConfirmationCanceled))
    else if keyString k == "e".toList then
      (m, some (.emit (.editDateTime {
        HomePlayer := m.homePlayer
        AwayPlayer := m.awayPlayer
        Division := m.division
        RoundNumber := m.roundNumber
        MatchNumber := m.matchNumber
        MatchID := m.matchID
        DateTime := m.selectedTime })))
    else (m, none)
  | _ => (m, none)

/-! ## `internal/cli/fixture.go` -/

/-- Placeholder `Match` for the (never-taken) out-of-range branches of the
bounds-checked list accesses. -/
def defaultMatch : Match :=
  { HomePlayer := [], AwayPlayer := [], DateTime := [], BGALink := []
    ID := 0, HomeScore := 0, AwayScore := 0, Played := false }

/-- Placeholder `Round` for the (never-taken) out-of-range branches of the
bounds-checked list accesses. -/
def defaultRound : Round := { DateRange := [], Matches := [], Number := 0 }

/-- `cli.FixtureModel` (the `style` field is presentation-only and the
`bgaClient` handle is an external collaborator whose behaviour lives in
`SubmitEnv`; both are omitted from the state). -/
structure FixtureModel where
  division : Division
  dateTimePicker : Option DateTimePickerModel
  confirmationModel : Option TournamentConfirmationModel
  statusMessage : GoStr
  currentRound : Int
  selectedMatch : Int
  showDatePicker : Bool
  showConfirmation : Bool
  deriving DecidableEq

/-- `cli.NewFixtureModel`. -/
def NewFixtureModel (division : Division) : FixtureModel :=
  { division := division
    dateTimePicker := none
    confirmationModel := none
    statusMessage := []
    currentRound := 0
    selectedMatch := 0
    showDatePicker := false
    showConfirmation := false }

/-- `cli.FixtureModel.GetCurrentRound`: bounds-checked access, `none` is the
Go `nil`. -/
def FixtureModel.GetCurrentRound (m : FixtureModel) : Option Round :=
  if 0 ≤ m.currentRound ∧ m.currentRound < (m.division.Rounds.length : Int) then
    m.division.Rounds.get? m.currentRound.toNat
  else none

/-- `cli.FixtureModel.handleRoundNavigation`. -/
def FixtureModel.handleRoundNavigation (m : FixtureModel) (direction : Int) :
    FixtureModel :=
  let r := m.currentRound + direction
  let r :=
    if r < 0 then (m.division.Rounds.length : Int) - 1
    else if (m.division.Rounds.length : Int) ≤ r then 0
    else r
  { m with currentRound := r, selectedMatch := 0 }

/-- `cli.FixtureModel.handleMatchSelection`. -/
def FixtureModel.handleMatchSelection (m : FixtureModel) (direction : Int) :
    FixtureModel :=
  match m.GetCurrentRound with
  | none => m
  | some currentRound =>
    if currentRound.Matches.length = 0 then m
    else
      let s := m.selectedMatch + direction
      let s :=
        if s < 0 then (currentRound.Matches.length : Int) - 1
        else if (currentRound.Matches.length : Int) ≤ s then 0
        else s
      { m with selectedMatch := s }

/-- `cli.FixtureModel.handleMatchEnter`.  The result is `none` exactly when
the Go code would panic (negative slice index, unreachable from the real
event loop). -/
def FixtureModel.handleMatchEnter (env : Env) (m : FixtureModel) :
    Option (FixtureModel × Option Cmd) :=
  match m.GetCurrentRound with
  | none => some (m, none)
  | some currentRound =>
    if (currentRound.Matches.length : Int) ≤ m.selectedMatch then some (m, none)
    else if m.selectedMatch < 0 then none
    else
      let selectedMatch := currentRound.Matches.getD m.selectedMatch.toNat defaultMatch
      if selectedMatch.Played ∧ selectedMatch.BGALink ≠ [] then
        if env.clipboardOk then
          some ({ m with statusMessage := "Tournament link copied to clipboard!".toList },
            some (.tick 3))
        else
          some ({ m with statusMessage := "Failed to copy link to clipboard".toList },
            some (.tick 3))
      else
        some ({ m with statusMessage :=
          "Press \x27c\x27 to create tournament for this match".toList }, none)

/-- `cli.FixtureModel.handleCreateTournament`. -/
def FixtureModel.handleCreateTournament (env : Env) (m : FixtureModel) :
    Option (FixtureModel × Option Cmd) :=
  match m.GetCurrentRound with
  | none => some (m, none)
  | some currentRound =>
    if (currentRound.Matches.length : Int) ≤ m.selectedMatch then some (m, none)
    else if m.selectedMatch < 0 then none
    else
      let selectedMatch := currentRound.Matches.getD m.selectedMatch.toNat defaultMatch
      if ¬ selectedMatch.Played then
        let picker := NewDateTimePickerModel env selectedMatch.HomePlayer
          selectedMatch.AwayPlayer m.division.Name (m.currentRound + 1)
          selectedMatch.ID selectedMatch.ID
        some ({ m with dateTimePicker := some picker, showDatePicker := true },
          some .pickerInit)
      else some (m, none)

/-- `cli.FixtureModel.handleKeyMessages`: the `msg.Type` switch followed by
the `msg.String()` switch. -/
def FixtureModel.handleKeyMessages (env : Env) (m : FixtureModel) (k : Key) :
    Option (FixtureModel × Option Cmd) :=
  match k with
  | .ctrlC => some (m, some .quit)
  | .left => some (m.handleRoundNavigation (-1), none)
  | .pgUp => some (m.handleRoundNavigation (-1), none)
  | .right => some (m.handleRoundNavigation 1, none)
  | .pgDown => some (m.handleRoundNavigation 1, none)
  | .esc => some (m, some (.emit .backToMenu))
  | .down => some (m.handleMatchSelection 1, none)
  | .up => some (m.handleMatchSelection (-1), none)
  | .enter => m.handleMatchEnter env
  | _ =>
    let s := keyString k
    if s == "c".toList then m.handleCreateTournament env
    else if s == "h".toList then some (m.handleRoundNavigation (-1), none)
    else if s == "l".toList then some (m.handleRoundNavigation 1, none)
    else if s == "j".toList then some (m.handleMatchSelection 1, none)
    else if s == "k".toList then some (m.handleMatchSelection (-1), none)
    else if s == "q".toList then some (m, some (.emit .backToMenu))
    else some (m, none)

/-- The first-match-with-this-ID in-place link update of
`handleTournamentCreated` (`for ... if match.ID == msg.matchID { ...BGALink =
msg.link; break }`). -/
def setBGALinkFirst (matchID : Int) (link : GoStr) : List Match → List Match
  | [] => []
  | mt :: ms =>
    if mt.ID = matchID then { mt with BGALink := link } :: ms
    else mt :: setBGALinkFirst matchID link ms

/-- `cli.FixtureModel.handleTournamentCreated`.  `none` marks the Go panic
on a negative round index (unreachable from the real flow). -/
def FixtureModel.handleTournamentCreated (env : Env) (m : FixtureModel)
    (msg : TournamentCreatedMsg) : Option (FixtureModel × Option Cmd) :=
  if msg.success = false then
    some ({ m with statusMessage :=
      "Tournament creation failed: ".toList ++ msg.error }, some (.tick 3))
  else
    let division? : Option Division :=
      if msg.roundNum < (m.division.Rounds.length : Int) then
        if msg.roundNum < 0 then none
        else
          let rn := msg.roundNum.toNat
          let round := m.division.Rounds.getD rn defaultRound
          let round' := { round with Matches := setBGALinkFirst msg.matchID msg.link round.Matches }
          some { m.division with Rounds := m.division.Rounds.set rn round' }
      else some m.division
    match division? with
    | none => none
    | some dv =>
      let status :=
        if env.clipboardOk then
          "Tournament created successfully! Link copied to clipboard.".toList
        else
          "Tournament created successfully! (Failed to copy link to clipboard)".toList
      some ({ m with division := dv, statusMessage := status }, some (.tick 3))

/-- `cli.FixtureModel.handleSubModelMessages`: route messages to the active
sub-model; the `Bool` is the `handled` flag. -/
def FixtureModel.handleSubModelMessages (env : Env) (m : FixtureModel)
    (msg : TeaMsg) : FixtureModel × Option Cmd × Bool :=
  if m.showDatePicker ∧ m.dateTimePicker.isSome then
    match msg with
    | .dateTimeSelected _ => (m, none, false)
    | .dateTimePickerCanceled => (m, none, false)
    | _ =>
      match m.dateTimePicker with
      | some picker =>
        let (p', cmd) := picker.update env msg
        ({ m with dateTimePicker := some p' }, cmd, true)
      | none => (m, none, false)
  else if m.showConfirmation ∧ m.confirmationModel.isSome then
    match msg with
    | .tournamentConfirmed _ => (m, none, false)
    | .tournamentConfirmationCanceled => (m, none, false)
    | _ =>
      match m.confirmationModel with
      | some conf =>
        let (c', cmd) := conf.update msg
        ({ m with confirmationModel := some c' }, cmd, true)
      | none => (m, none, false)
  else (m, none, false)

/-- `cli.FixtureModel.Update`.  `none` marks a Go panic (never reached from
the real event loop). -/
def FixtureModel.update (env : Env) (m : FixtureModel) (msg : TeaMsg) :
    Option (FixtureModel × Option Cmd) :=
  let sub := m.handleSubModelMessages env msg
  if sub.2.2 then some (sub.1, sub.2.1)
  else
    match msg with
    | .key k => m.handleKeyMessages env k
    | .clearStatus => some ({ m with statusMessage := [] }, none)
    | .createTournament req => some (m, some (.submit req))
    | .createTournamentWithDateTime req => some (m, some (.submitWithDateTime req))
    | .tournamentCreated t => m.handleTournamentCreated env t
    | .dateTimeSelected d =>
      some ({ m with showDatePicker := false
                     confirmationModel := some (NewTournamentConfirmationModel
                       d.HomePlayer d.AwayPlayer d.Division d.RoundNumber
                       d.MatchNumber d.MatchID d.DateTime)
                     showConfirmation := true }, none)
    | .dateTimePickerCanceled =>
      some ({ m with showDatePicker := false
                     statusMessage := "Tournament creation canceled".toList },
        some (.tick 2))
    | .tournamentConfirmed t =>
      some ({ m with showConfirmation := false
                     statusMessage := "Creating tournament for ".toList ++
                       t.HomePlayer ++ " vs ".toList ++ t.AwayPlayer ++ "...".toList },
        some (.emit (.createTournamentWithDateTime {
          dateTime := t.DateTime
          homePlayer := t.HomePlayer
          awayPlayer := t.AwayPlayer
          division := t.Division
          matchID := t.MatchID
          roundNum := t.RoundNumber - 1
          matchNumber := t.MatchNumber })))
    | .tournamentConfirmationCanceled =>
      some ({ m with showConfirmation := false
                     statusMessage := "Tournament creation canceled".toList },
        some (.tick 2))
    | _ => some (m, none)

/-! ## The deferred submission closures
(`handleCreateTournamentResponse` / `handleCreateTournamentWithDateTime`) -/

/-- The shared control flow of both deferred submission closures:
authentication bootstrap, login, contest creation, and the construction of
the `tournamentCreatedMsg` that is posted back to the event loop. -/
def runSubmitCore (senv : SubmitEnv) (matchID roundNum : Int) :
    TournamentCreatedMsg :=
  let fail (e : GoStr) : TournamentCreatedMsg :=
    { success := false, error := e, link := [], tournamentID := 0
      matchID := matchID, roundNum := roundNum }
  let create : TournamentCreatedMsg :=
    match senv.createResult with
    | .error e => fail ("Tournament creation failed: ".toList ++ e)
    | .ok resp =>
      if resp.Success = false then fail resp.Error
      else
        { success := true, tournamentID := resp.TournamentID, link := resp.Link
          error := [], matchID := matchID, roundNum := roundNum }
  if senv.isAuthenticated = false then
    match senv.credentials with
    | .error e => fail ("Failed to get credentials: ".toList ++ e)
    | .ok _ =>
      match senv.loginErr with
      | some e => fail ("Login failed: ".toList ++ e)
      | none => create
  else create

/-- The closure built by `handleCreateTournamentWithDateTime`. -/
def runCreateTournamentWithDateTime (senv : SubmitEnv)
    (req : CreateTournamentMsgWithDateTime) : TournamentCreatedMsg :=
  runSubmitCore senv req.matchID req.roundNum

/-- The closure built by `handleCreateTournamentResponse`. -/
def runCreateTournament (senv : SubmitEnv) (req : CreateTournamentMsg) :
    TournamentCreatedMsg :=
  runSubmitCore senv req.matchID req.roundNum


/-! ## Navigation operation sequences (for the cursor-validity invariant)

The browsing keys invoke `handleRoundNavigation` and `handleMatchSelection`
with direction `+1` or `-1` only (`handleKeyMessages`). -/

/-- One navigation operation as issued by the key handlers. -/
inductive NavOp where
  | roundNext
  | roundPrev
  | matchNext
  | matchPrev
  deriving DecidableEq

/-- Apply one navigation operation. -/
def applyNavOp (m : FixtureModel) : NavOp → FixtureModel
  | .roundNext => m.handleRoundNavigation 1
  | .roundPrev => m.handleRoundNavigation (-1)
  | .matchNext => m.handleMatchSelection 1
  | .matchPrev => m.handleMatchSelection (-1)

/-- Apply a sequence of navigation operations. -/
def applyNavOps (ops : List NavOp) (m : FixtureModel) : FixtureModel :=
  ops.foldl applyNavOp m

/-- Validity of the selection cursor for the current `Division` shape:
the round index is in bounds whenever rounds exist (with an empty division
it is `0` or `-1`, both rejected by the bounds-checked accessor), and the
match index is in bounds for the current round (pinned to `0` for a round
without matches). -/
def NavInv (m : FixtureModel) : Prop :=
  (m.division.Rounds.length = 0 → m.currentRound = 0 ∨ m.currentRound = -1) ∧
  (0 < m.division.Rounds.length →
    0 ≤ m.currentRound ∧ m.currentRound < (m.division.Rounds.length : Int)) ∧
  (match m.GetCurrentRound with
   | some rd =>
     0 ≤ m.selectedMatch ∧
     (rd.Matches.length = 0 → m.selectedMatch = 0) ∧
     (0 < rd.Matches.length → m.selectedMatch < (rd.Matches.length : Int))
   | none => m.selectedMatch = 0)

/-! ## Round-block decomposition of the `ParseDivision` scan

`blocksFrom cur lines` lists, for each round block the scan closes, the
`currentRoundLines` it hands to `ParseRound`; it mirrors the branch
structure of `divScan` without the error plumbing. -/

/-- The round blocks the `ParseDivision` scan assembles. -/
def blocksFrom (cur : List GoStr) : List GoStr → List (List GoStr)
  | [] => if cur.isEmpty then [] else [cur]
  | l :: rest =>
    let line := goTrimSpace l
    if isHeaderLine line then
      if cur.isEmpty then blocksFrom [line] rest
      else cur :: blocksFrom [line] rest
    else if line.isEmpty || goContains tenCommas line then
      blocksFrom cur rest
    else if cur.isEmpty then
      blocksFrom cur rest
    else
      blocksFrom (cur ++ [line]) rest

/-! ## Concrete fixtures used by the witnesses -/

/-- A trivial environment: clipboard succeeds, the external picker widget
starts at stamp `0` and ignores every message. -/
def sampleEnv : Env :=
  { clipboardOk := true
    pickerInitTime := 0
    pickerStep := fun t _ => (t, none) }

/-- An unplayed match between `player1` and `player2`. -/
def sampleMatch1 : Match :=
  { HomePlayer := "player1".toList, AwayPlayer := "player2".toList
    DateTime := [], BGALink := [], ID := 1
    HomeScore := 0, AwayScore := 0, Played := false }

/-- A played match with a reference link. -/
def sampleMatch2 : Match :=
  { HomePlayer := "herchu".toList, AwayPlayer := "Lord Trooper".toList
    DateTime := "12/08 - 09:30".toList
    BGALink := "https://boardgamearena.com/tournament?id=423761".toList
    ID := 2, HomeScore := 2, AwayScore := 1, Played := true }

/-- A two-round division used by the witnesses. -/
def sampleDivision : Division :=
  { Name := "Elite".toList
    Rounds :=
      [ { DateRange := "11/08 - 17/08".toList
          Matches := [sampleMatch1, sampleMatch2], Number := 1 }
      , { DateRange := "18/08 - 24/08".toList
          Matches := [{ sampleMatch1 with ID := 3 }], Number := 2 } ] }

/-- The fixture screen freshly opened on `sampleDivision`. -/
def sampleModel : FixtureModel := NewFixtureModel sampleDivision

/-- The state after pressing `c` on the (unplayed) first match: the datetime
picker is open. -/
def pickState : FixtureModel :=
  ((sampleModel.handleCreateTournament sampleEnv).getD (sampleModel, none)).1

/-- The `DateTimeSelectedMsg` the picker emits for `sampleMatch1` at stamp
`42`. -/
def sampleSel : DateTimeSelectedMsg :=
  { DateTime := 42, HomePlayer := "player1".toList, AwayPlayer := "player2".toList
    Division := "Elite".toList, RoundNumber := 1, MatchNumber := 1, MatchID := 1 }

/-- The state after the picker delivered `sampleSel`: the confirmation
screen is open (the ConfirmingDetails state). -/
def confirmState : FixtureModel :=
  ((pickState.update sampleEnv (.dateTimeSelected sampleSel)).getD (pickState, none)).1

/-- The `EditDateTimeMsg` the confirmation screen emits on `e` in
`confirmState`. -/
def sampleEdit : EditDateTimeMsg :=
  { DateTime := 42, HomePlayer := "player1".toList, AwayPlayer := "player2".toList
    Division := "Elite".toList, RoundNumber := 1, MatchNumber := 1, MatchID := 1 }

/-- A submission environment whose credential acquisition fails. -/
def senvNoCreds : SubmitEnv :=
  { isAuthenticated := false
    credentials := .error "no credentials".toList
    loginErr := none
    createResult := .error "unreachable".toList }

/-- A submission environment where everything succeeds. -/
def senvAllOK : SubmitEnv :=
  { isAuthenticated := true
    credentials := .ok ("u".toList, "p".toList)
    loginErr := none
    createResult := .ok
      { Success := true, TournamentID := 99
        Link := "https://boardgamearena.com/tournament?id=99".toList, Error := [] } }

/-- The wizard request for `sampleMatch1` in round `1` (0-based round `0`). -/
def sampleReq : CreateTournamentMsgWithDateTime :=
  { dateTime := 42, homePlayer := "player1".toList, awayPlayer := "player2".toList
    division := "Elite".toList, matchID := 1, roundNum := 0, matchNumber := 1 }

/-- Scenario A row of the spec (played match with link). -/
def scenarioARow : GoStr :=
  "1,herchu,2,1,Lord Trooper,12/08 - 09:30,https://x/?id=423761,,1,1,0".toList

/-- The `Match` parsed from `scenarioARow`. -/
def parsedScenarioA : Match := ((ParseMatch scenarioARow).toOption).getD defaultMatch

/-- The CSV record of `scenarioARow`. -/
def recsScenarioA : List GoStr := ((readCSVLine scenarioARow).toOption).getD []

/-- A row whose quoted single field contains a run of ten commas: one CSV
field, yet skipped by the `ParseDivision` scan. -/
def sepRunRow : GoStr := "\"x,,,,,,,,,,\"".toList

/-- An input whose round block contains `sepRunRow` (a match row with fewer
than 10 fields by the CSV reading) after a valid row. -/
def c6Text : GoStr :=
  ("Duelo,Fecha 1,,,,5/8" ++ "\n" ++ "1,h,2,3,a,,,,1,0" ++ "\n" ++ "\"x,,,,,,,,,,\"").toList

/-- The division `ParseDivision` successfully produces from `c6Text`. -/
def c6ParsedDivision : Division :=
  ((ParseDivision c6Text).toOption).getD { Name := [], Rounds := [] }

/-- The three-character separator of the filename convention. -/
def sepDash : GoStr := " - ".toList

/-- The filename suffix hard-coded in `ParseFixtureFile`. -/
def fixtureSuffix : GoStr := "-Fixture.csv".toList


/-- A division whose single round has no matches. -/
def emptyRoundDivision : Division :=
  { Name := "Empty".toList
    Rounds := [{ DateRange := "x".toList, Matches := [], Number := 1 }] }

/-- The fixture screen opened on `emptyRoundDivision`. -/
def emptyRoundModel : FixtureModel := NewFixtureModel emptyRoundDivision

/-- `sampleModel` with its round cursor forced out of range. -/
def outOfRangeModel : FixtureModel := { sampleModel with currentRound := 5 }

/-- A sample navigation sequence. -/
def sampleOps : List NavOp := [.roundNext, .matchNext, .matchNext, .roundPrev, .matchPrev]

/-- An input whose single round block contains a 4-field row. -/
def c6BadText : GoStr :=
  ("Duelo,Fecha 1,,,,5/8" ++ "\n" ++ "1,h,2,3").toList

/-- The 4-field row of `c6BadText`. -/
def c6BadRow : GoStr := "1,h,2,3".toList


/-! # Theorems

## Navigation: helper lemmas -/

theorem handleRoundNavigation_division (m : FixtureModel) (d : Int) :
    (m.handleRoundNavigation d).division = m.division := rfl

theorem handleRoundNavigation_selectedMatch (m : FixtureModel) (d : Int) :
    (m.handleRoundNavigation d).selectedMatch = 0 := rfl

theorem handleMatchSelection_division (m : FixtureModel) (d : Int) :
    (m.handleMatchSelection d).division = m.division := by
  unfold FixtureModel.handleMatchSelection
  cases m.GetCurrentRound with
  | none => rfl
  | some rd =>
    by_cases h : rd.Matches.length = 0
    · simp [h]
    · simp [h]

theorem handleMatchSelection_currentRound (m : FixtureModel) (d : Int) :
    (m.handleMatchSelection d).currentRound = m.currentRound := by
  unfold FixtureModel.handleMatchSelection
  cases m.GetCurrentRound with
  | none => rfl
  | some rd =>
    by_cases h : rd.Matches.length = 0
    · simp [h]
    · simp [h]

theorem GetCurrentRound_congr (m m' : FixtureModel)
    (hdiv : m'.division = m.division) (hcr : m'.currentRound = m.currentRound) :
    m'.GetCurrentRound = m.GetCurrentRound := by
  unfold FixtureModel.GetCurrentRound
  rw [hdiv, hcr]

theorem wrap_step (r n : Int) (h0 : 0 ≤ r) (h1 : r < n) :
    (if r + 1 < 0 then n - 1 else if n ≤ r + 1 then 0 else r + 1) = (r + 1) % n := by
  rcases eq_or_lt_of_le (by omega : r + 1 ≤ n) with he | hl
  · rw [if_neg (by omega), if_pos (by omega), he, Int.emod_self]
  · rw [if_neg (by omega), if_neg (by omega), Int.emod_eq_of_lt (by omega) hl]

theorem handleRoundNavigation_one (m : FixtureModel)
    (h0 : 0 ≤ m.currentRound) (h1 : m.currentRound < (m.division.Rounds.length : Int)) :
    (m.handleRoundNavigation 1).currentRound
      = (m.currentRound + 1) % (m.division.Rounds.length : Int) := by
  unfold FixtureModel.handleRoundNavigation
  exact wrap_step m.currentRound _ h0 h1

theorem roundNav_iterate (k : Nat) (m : FixtureModel)
    (h0 : 0 ≤ m.currentRound) (h1 : m.currentRound < (m.division.Rounds.length : Int)) :
    ((fun x => FixtureModel.handleRoundNavigation x 1)^[k] m).division = m.division ∧
    ((fun x => FixtureModel.handleRoundNavigation x 1)^[k] m).currentRound
      = (m.currentRound + k) % (m.division.Rounds.length : Int) := by
  induction k generalizing m with
  | zero =>
    refine ⟨rfl, ?_⟩
    simpa using (Int.emod_eq_of_lt h0 h1).symm
  | succ k ih =>
    rw [Function.iterate_succ_apply]
    have hn : (0 : Int) < (m.division.Rounds.length : Int) := lt_of_le_of_lt h0 h1
    have hdiv : (m.handleRoundNavigation 1).division = m.division := rfl
    have hcr : (m.handleRoundNavigation 1).currentRound
        = (m.currentRound + 1) % (m.division.Rounds.length : Int) :=
      handleRoundNavigation_one m h0 h1
    have h0' : 0 ≤ (m.handleRoundNavigation 1).currentRound := by
      rw [hcr]; exact Int.emod_nonneg _ (by omega)
    have h1' : (m.handleRoundNavigation 1).currentRound
        < ((m.handleRoundNavigation 1).division.Rounds.length : Int) := by
      rw [hcr, hdiv]; exact Int.emod_lt_of_pos _ hn
    obtain ⟨ihd, ihc⟩ := ih (m.handleRoundNavigation 1) h0' h1'
    refine ⟨by rw [ihd, hdiv], ?_⟩
    rw [ihc, hcr, hdiv, Int.emod_add_emod]
    push_cast
    ring_nf

theorem handleMatchSelection_one (m : FixtureModel) (rd : Round)
    (hrd : m.GetCurrentRound = some rd)
    (h0 : 0 ≤ m.selectedMatch) (h1 : m.selectedMatch < (rd.Matches.length : Int)) :
    (m.handleMatchSelection 1).selectedMatch
      = (m.selectedMatch + 1) % (rd.Matches.length : Int) := by
  have hM : rd.Matches.length ≠ 0 := by
    intro h
    rw [h] at h1
    omega
  unfold FixtureModel.handleMatchSelection
  rw [hrd]
  simp only [hM, if_neg]
  simpa using wrap_step m.selectedMatch _ h0 h1

theorem matchSel_iterate (k : Nat) (m : FixtureModel) (rd : Round)
    (hrd : m.GetCurrentRound = some rd)
    (h0 : 0 ≤ m.selectedMatch) (h1 : m.selectedMatch < (rd.Matches.length : Int)) :
    ((fun x => FixtureModel.handleMatchSelection x 1)^[k] m).division = m.division ∧
    ((fun x => FixtureModel.handleMatchSelection x 1)^[k] m).currentRound = m.currentRound ∧
    ((fun x => FixtureModel.handleMatchSelection x 1)^[k] m).selectedMatch
      = (m.selectedMatch + k) % (rd.Matches.length : Int) := by
  induction k generalizing m with
  | zero =>
    refine ⟨rfl, rfl, ?_⟩
    simpa using (Int.emod_eq_of_lt h0 h1).symm
  | succ k ih =>
    rw [Function.iterate_succ_apply]
    have hn : (0 : Int) < (rd.Matches.length : Int) := lt_of_le_of_lt h0 h1
    have hdiv : (m.handleMatchSelection 1).division = m.division :=
      handleMatchSelection_division m 1
    have hcr : (m.handleMatchSelection 1).currentRound = m.currentRound :=
      handleMatchSelection_currentRound m 1
    have hrd' : (m.handleMatchSelection 1).GetCurrentRound = some rd := by
      rw [GetCurrentRound_congr m (m.handleMatchSelection 1) hdiv hcr]; exact hrd
    have hsel : (m.handleMatchSelection 1).selectedMatch
        = (m.selectedMatch + 1) % (rd.Matches.length : Int) :=
      handleMatchSelection_one m rd hrd h0 h1
    have h0' : 0 ≤ (m.handleMatchSelection 1).selectedMatch := by
      rw [hsel]; exact Int.emod_nonneg _ (by omega)
    have h1' : (m.handleMatchSelection 1).selectedMatch < (rd.Matches.length : Int) := by
      rw [hsel]; exact Int.emod_lt_of_pos _ hn
    obtain ⟨ihd, ihc, ihs⟩ := ih (m.handleMatchSelection 1) hrd' h0' h1'
    refine ⟨by rw [ihd, hdiv], by rw [ihc, hcr], ?_⟩
    rw [ihs, hsel, Int.emod_add_emod]
    push_cast
    ring_nf


/-! ## C7 / C8: navigation claims -/

/-- C7: in a Division with `N ≥ 1` rounds, advancing the round cursor by
`+1` exactly `N` times returns it to its starting index; within a fixed
round with `M ≥ 1` matches, advancing the match cursor `M` times returns it
to its start and leaves the round cursor unchanged; and every round advance
resets the match index to `0`. -/
theorem navigation_wraparound :
    (∀ m : FixtureModel, 0 ≤ m.currentRound →
      m.currentRound < (m.division.Rounds.length : Int) →
      ((fun x => FixtureModel.handleRoundNavigation x 1)^[m.division.Rounds.length] m).currentRound
        = m.currentRound) ∧
    (∀ (m : FixtureModel) (rd : Round), m.GetCurrentRound = some rd →
      0 ≤ m.selectedMatch → m.selectedMatch < (rd.Matches.length : Int) →
      ((fun x => FixtureModel.handleMatchSelection x 1)^[rd.Matches.length] m).selectedMatch
        = m.selectedMatch ∧
      ((fun x => FixtureModel.handleMatchSelection x 1)^[rd.Matches.length] m).currentRound
        = m.currentRound) ∧
    (∀ (m : FixtureModel) (d : Int), (m.handleRoundNavigation d).selectedMatch = 0) := by
  refine ⟨?_, ?_, ?_⟩
  · intro m h0 h1
    obtain ⟨-, hc⟩ := roundNav_iterate m.division.Rounds.length m h0 h1
    rw [hc]
    have h2 := Int.add_mul_emod_self_left (a := m.currentRound)
      (b := (m.division.Rounds.length : Int)) (c := 1)
    rw [mul_one] at h2
    rw [h2, Int.emod_eq_of_lt h0 h1]
  · intro m rd hrd h0 h1
    obtain ⟨-, hcr, hs⟩ := matchSel_iterate rd.Matches.length m rd hrd h0 h1
    refine ⟨?_, hcr⟩
    rw [hs]
    have h2 := Int.add_mul_emod_self_left (a := m.selectedMatch)
      (b := (rd.Matches.length : Int)) (c := 1)
    rw [mul_one] at h2
    rw [h2, Int.emod_eq_of_lt h0 h1]
  · intro m d
    rfl

/-- Witness for C7 on the concrete two-round sample division. -/
theorem navigation_wraparound_witness :
    ((fun x => FixtureModel.handleRoundNavigation x 1)^[sampleModel.division.Rounds.length]
        sampleModel).currentRound = sampleModel.currentRound ∧
    ((fun x => FixtureModel.handleMatchSelection x 1)^[
        (sampleDivision.Rounds.getD 0 defaultRound).Matches.length] sampleModel).selectedMatch
      = sampleModel.selectedMatch ∧
    (sampleModel.handleRoundNavigation 1).selectedMatch = 0 :=
  ⟨navigation_wraparound.1 sampleModel (by decide) (by decide),
   (navigation_wraparound.2.1 sampleModel (sampleDivision.Rounds.getD 0 defaultRound)
     (by decide) (by decide) (by decide)).1,
   navigation_wraparound.2.2 sampleModel 1⟩

theorem handleRoundNavigation_formula (m : FixtureModel) (d : Int) :
    (m.handleRoundNavigation d).currentRound =
      (if m.currentRound + d < 0 then (m.division.Rounds.length : Int) - 1
       else if (m.division.Rounds.length : Int) ≤ m.currentRound + d then 0
       else m.currentRound + d) := rfl

theorem handleRoundNavigation_range (m : FixtureModel) (d : Int)
    (h : 0 < m.division.Rounds.length) :
    0 ≤ (m.handleRoundNavigation d).currentRound ∧
    (m.handleRoundNavigation d).currentRound < (m.division.Rounds.length : Int) := by
  have h' : (1 : Int) ≤ (m.division.Rounds.length : Int) := by exact_mod_cast h
  rw [handleRoundNavigation_formula]
  constructor <;> (split_ifs <;> omega)

theorem handleRoundNavigation_empty (m : FixtureModel) (d : Int)
    (h : m.division.Rounds.length = 0) :
    (m.handleRoundNavigation d).currentRound = 0 ∨
    (m.handleRoundNavigation d).currentRound = -1 := by
  have h' : (m.division.Rounds.length : Int) = 0 := by exact_mod_cast h
  rw [handleRoundNavigation_formula]
  split_ifs <;> omega

theorem navInv_roundNav (m : FixtureModel) (d : Int) (h : NavInv m) :
    NavInv (m.handleRoundNavigation d) := by
  obtain ⟨-, -, -⟩ := h
  refine ⟨?_, ?_, ?_⟩
  · intro hlen
    exact handleRoundNavigation_empty m d hlen
  · intro hlen
    exact handleRoundNavigation_range m d hlen
  · cases hg : (m.handleRoundNavigation d).GetCurrentRound with
    | none => rfl
    | some rd =>
      refine ⟨le_refl 0, fun _ => rfl, fun hM => ?_⟩
      show (0 : Int) < (rd.Matches.length : Int)
      exact_mod_cast hM

theorem handleMatchSelection_formula (m : FixtureModel) (d : Int) (rd : Round)
    (hrd : m.GetCurrentRound = some rd) (hM : rd.Matches.length ≠ 0) :
    (m.handleMatchSelection d).selectedMatch =
      (if m.selectedMatch + d < 0 then (rd.Matches.length : Int) - 1
       else if (rd.Matches.length : Int) ≤ m.selectedMatch + d then 0
       else m.selectedMatch + d) := by
  unfold FixtureModel.handleMatchSelection
  rw [hrd]
  simp [hM]

theorem handleMatchSelection_range (m : FixtureModel) (d : Int) (rd : Round)
    (hrd : m.GetCurrentRound = some rd) (hM : 0 < rd.Matches.length) :
    0 ≤ (m.handleMatchSelection d).selectedMatch ∧
    (m.handleMatchSelection d).selectedMatch < (rd.Matches.length : Int) := by
  have hM' : rd.Matches.length ≠ 0 := by omega
  have h' : (1 : Int) ≤ (rd.Matches.length : Int) := by exact_mod_cast hM
  rw [handleMatchSelection_formula m d rd hrd hM']
  constructor <;> (split_ifs <;> omega)

theorem navInv_matchSel (m : FixtureModel) (d : Int) (h : NavInv m) :
    NavInv (m.handleMatchSelection d) := by
  obtain ⟨h1, h2, h3⟩ := h
  cases hg : m.GetCurrentRound with
  | none =>
    have : m.handleMatchSelection d = m := by
      unfold FixtureModel.handleMatchSelection
      rw [hg]
    rw [this]
    exact ⟨h1, h2, h3⟩
  | some rd =>
    by_cases hM : rd.Matches.length = 0
    · have : m.handleMatchSelection d = m := by
        unfold FixtureModel.handleMatchSelection
        rw [hg]
        simp [hM]
      rw [this]
      exact ⟨h1, h2, h3⟩
    · have hdiv : (m.handleMatchSelection d).division = m.division :=
        handleMatchSelection_division m d
      have hcr : (m.handleMatchSelection d).currentRound = m.currentRound :=
        handleMatchSelection_currentRound m d
      have hg' : (m.handleMatchSelection d).GetCurrentRound = some rd := by
        rw [GetCurrentRound_congr m (m.handleMatchSelection d) hdiv hcr]
        exact hg
      have hrange := handleMatchSelection_range m d rd hg (by omega)
      refine ⟨?_, ?_, ?_⟩
      · intro hlen
        rw [hdiv] at hlen
        rw [hcr]
        exact h1 hlen
      · intro hlen
        rw [hdiv] at hlen
        rw [hcr, hdiv]
        exact h2 hlen
      · rw [hg']
        exact ⟨hrange.1, fun h0 => absurd h0 hM, fun _ => hrange.2⟩

theorem navInv_applyNavOp (m : FixtureModel) (op : NavOp) (h : NavInv m) :
    NavInv (applyNavOp m op) := by
  cases op with
  | roundNext => exact navInv_roundNav m 1 h
  | roundPrev => exact navInv_roundNav m (-1) h
  | matchNext => exact navInv_matchSel m 1 h
  | matchPrev => exact navInv_matchSel m (-1) h

theorem navInv_init (dv : Division) : NavInv (NewFixtureModel dv) := by
  refine ⟨fun _ => Or.inl rfl, fun h => ⟨le_refl 0, ?_⟩, ?_⟩
  · show (0 : Int) < (dv.Rounds.length : Int)
    exact_mod_cast h
  · cases hg : (NewFixtureModel dv).GetCurrentRound with
    | none => rfl
    | some rd =>
      refine ⟨le_refl 0, fun _ => rfl, fun hM => ?_⟩
      show (0 : Int) < (rd.Matches.length : Int)
      exact_mod_cast hM

theorem navInv_foldl (ops : List NavOp) (m : FixtureModel) (h : NavInv m) :
    NavInv (List.foldl applyNavOp m ops) := by
  induction ops generalizing m with
  | nil => exact h
  | cons op ops ih => exact ih (applyNavOp m op) (navInv_applyNavOp m op h)

/-- C8: the bounds-checked round accessor returns the `nil` sentinel rather
than indexing when the Division has no rounds or the cursor is out of
range; advancing the match cursor is a no-op on a round without matches;
and every sequence of navigation operations from a freshly opened fixture
screen keeps the cursor valid for the Division shape. -/
theorem navigation_indices_always_valid :
    (∀ m : FixtureModel,
      m.division.Rounds.length = 0 ∨ m.currentRound < 0 ∨
        (m.division.Rounds.length : Int) ≤ m.currentRound →
      m.GetCurrentRound = none) ∧
    (∀ (m : FixtureModel) (rd : Round) (d : Int),
      m.GetCurrentRound = some rd → rd.Matches.length = 0 →
      m.handleMatchSelection d = m) ∧
    (∀ (dv : Division) (ops : List NavOp), NavInv (applyNavOps ops (NewFixtureModel dv))) := by
  refine ⟨?_, ?_, ?_⟩
  · intro m h
    unfold FixtureModel.GetCurrentRound
    rw [if_neg]
    rintro ⟨hl, hr⟩
    rcases h with h | h | h
    · rw [h] at hr
      omega
    · omega
    · omega
  · intro m rd d hrd hM
    unfold FixtureModel.handleMatchSelection
    rw [hrd]
    simp [hM]
  · intro dv ops
    exact navInv_foldl ops (NewFixtureModel dv) (navInv_init dv)

/-- Witness for C8 at concrete inputs: an out-of-range cursor, a round with
no matches, and a concrete operation sequence. -/
theorem navigation_indices_always_valid_witness :
    outOfRangeModel.GetCurrentRound = none ∧
    emptyRoundModel.handleMatchSelection 1 = emptyRoundModel ∧
    NavInv (applyNavOps sampleOps (NewFixtureModel sampleDivision)) :=
  ⟨navigation_indices_always_valid.1 outOfRangeModel (by right; right; decide),
   navigation_indices_always_valid.2.1 emptyRoundModel
     { DateRange := "x".toList, Matches := [], Number := 1 } 1 (by decide) rfl,
   navigation_indices_always_valid.2.2 sampleDivision sampleOps⟩


/-! ## Dispatch lemmas for `FixtureModel.update` -/

theorem handleSubModelMessages_inactive (env : Env) (m : FixtureModel) (msg : TeaMsg)
    (h1 : m.showDatePicker = false) (h2 : m.showConfirmation = false) :
    m.handleSubModelMessages env msg = (m, none, false) := by
  unfold FixtureModel.handleSubModelMessages
  simp [h1, h2]

/-! ## C1: the edit event at the confirmation screen -/

/-- C1 (evaluation at the failing input): with the wizard in the
ConfirmingDetails state (`confirmState`), delivering the edit event
(`EditDateTimeMsg`, produced by the `e` key) leaves the model completely
unchanged and issues no command: `FixtureModel.Update` has no
`EditDateTimeMsg` case, and `handleSubModelMessages` routes the message
into the confirmation sub-model, whose `Update` ignores it.  The datetime
picker is NOT reopened (`showDatePicker` stays `false`,
`showConfirmation` stays `true`), contradicting §4.3 of the spec and the
repository's own `TestFixtureModel_EditDateTime` test. -/
theorem editDateTime_event_leaves_confirmation_screen :
    confirmState.showConfirmation = true ∧
    confirmState.showDatePicker = false ∧
    FixtureModel.update sampleEnv confirmState (.editDateTime sampleEdit)
      = some (confirmState, none) :=
  ⟨rfl, rfl, rfl⟩

/-! ## C4: cancellation -/

/-- C4: delivering the cancel event at the datetime-picker screen, or at
the confirmation screen, returns the model to browsing with the `Division`
untouched (the record update changes only the screen flag and the status
message), sets the cancellation notice, and schedules a 2-second
auto-clear. -/
theorem cancel_events_restore_browsing_unchanged_division :
    (∀ (env : Env) (m : FixtureModel),
      m.showDatePicker = true → m.dateTimePicker.isSome = true →
      m.update env .dateTimePickerCanceled =
        some ({ m with showDatePicker := false,
                       statusMessage := "Tournament creation canceled".toList },
              some (.tick 2))) ∧
    (∀ (env : Env) (m : FixtureModel),
      m.showConfirmation = true → m.confirmationModel.isSome = true →
      m.showDatePicker = false →
      m.update env .tournamentConfirmationCanceled =
        some ({ m with showConfirmation := false,
                       statusMessage := "Tournament creation canceled".toList },
              some (.tick 2))) := by
  constructor
  · intro env m h1 h2
    unfold FixtureModel.update FixtureModel.handleSubModelMessages
    simp [h1, h2]
  · intro env m h1 h2 h3
    unfold FixtureModel.update FixtureModel.handleSubModelMessages
    simp [h1, h2, h3]

/-- Witness for C4: cancel at the concrete picker state and at the concrete
confirmation state. -/
theorem cancel_events_witness :
    pickState.update sampleEnv .dateTimePickerCanceled =
      some ({ pickState with showDatePicker := false,
                             statusMessage := "Tournament creation canceled".toList },
            some (.tick 2)) ∧
    confirmState.update sampleEnv .tournamentConfirmationCanceled =
      some ({ confirmState with showConfirmation := false,
                                statusMessage := "Tournament creation canceled".toList },
            some (.tick 2)) :=
  ⟨cancel_events_restore_browsing_unchanged_division.1 sampleEnv pickState rfl rfl,
   cancel_events_restore_browsing_unchanged_division.2 sampleEnv confirmState rfl rfl rfl⟩

/-! ## C3: failed submissions -/

/-- C3: every failed outcome of the deferred submission closure (failed
credential acquisition, failed login, transport error, or a response with
`Success == false`) is delivered back as a `tournamentCreatedMsg` with
`success == false`; handling it leaves the model unchanged except for the
status message (the `Division` in particular is untouched), keeps the
browsing screen active, and schedules the same 3-second auto-clear that the
success notice uses. -/
theorem failed_submission_preserves_division_and_ticks_3s :
    (∀ (env : Env) (senv : SubmitEnv) (req : CreateTournamentMsgWithDateTime)
        (m : FixtureModel),
      m.showDatePicker = false → m.showConfirmation = false →
      (runCreateTournamentWithDateTime senv req).success = false →
      m.update env (.tournamentCreated (runCreateTournamentWithDateTime senv req)) =
        some ({ m with statusMessage := "Tournament creation failed: ".toList
                  ++ (runCreateTournamentWithDateTime senv req).error },
              some (.tick 3))) ∧
    (∀ (env : Env) (m : FixtureModel) (t : TournamentCreatedMsg),
      m.showDatePicker = false → m.showConfirmation = false →
      t.success = true → 0 ≤ t.roundNum →
      ∃ m', m.update env (.tournamentCreated t) = some (m', some (.tick 3))) := by
  constructor
  · intro env senv req m h1 h2 hs
    unfold FixtureModel.update FixtureModel.handleSubModelMessages
      FixtureModel.handleTournamentCreated
    simp [h1, h2, hs]
  · intro env m t h1 h2 hs h0
    unfold FixtureModel.update FixtureModel.handleSubModelMessages
      FixtureModel.handleTournamentCreated
    simp only [h1, h2, hs]
    by_cases hlen : t.roundNum < (m.division.Rounds.length : Int)
    · simp [hlen, not_lt.mpr h0, hs]
    · simp [hlen, hs]

/-- Witness for C3: the credential-failure outcome at the sample browsing
state, and a successful result for the delay conjunct. -/
theorem failed_submission_witness :
    sampleModel.update sampleEnv
        (.tournamentCreated (runCreateTournamentWithDateTime senvNoCreds sampleReq)) =
      some ({ sampleModel with statusMessage := "Tournament creation failed: ".toList
                ++ (runCreateTournamentWithDateTime senvNoCreds sampleReq).error },
            some (.tick 3)) ∧
    ∃ m', sampleModel.update sampleEnv
        (.tournamentCreated (runCreateTournamentWithDateTime senvAllOK sampleReq)) =
      some (m', some (.tick 3)) :=
  ⟨failed_submission_preserves_division_and_ticks_3s.1 sampleEnv senvNoCreds sampleReq
     sampleModel rfl rfl rfl,
   failed_submission_preserves_division_and_ticks_3s.2 sampleEnv sampleModel
     (runCreateTournamentWithDateTime senvAllOK sampleReq) rfl rfl rfl (by decide)⟩


/-! ## C2: the success reconciliation frame -/

theorem setBGALinkFirst_length (mid : Int) (link : GoStr) (ms : List Match) :
    (setBGALinkFirst mid link ms).length = ms.length := by
  induction ms with
  | nil => rfl
  | cons mt ms ih =>
    unfold setBGALinkFirst
    by_cases h : mt.ID = mid
    · simp [h]
    · simp [h, ih]

theorem setBGALinkFirst_get_first (mid : Int) (link : GoStr) (ms : List Match)
    (i : Nat) (mt : Match) (hget : ms.get? i = some mt) (hid : mt.ID = mid)
    (hbefore : ∀ j mtj, j < i → ms.get? j = some mtj → mtj.ID ≠ mid) :
    (setBGALinkFirst mid link ms).get? i = some { mt with BGALink := link } := by
  induction ms generalizing i with
  | nil => simp at hget
  | cons m0 ms ih =>
    cases i with
    | zero =>
      simp only [List.get?_cons_zero, Option.some.injEq] at hget
      subst hget
      unfold setBGALinkFirst
      simp [hid]
    | succ i =>
      have h0 : m0.ID ≠ mid := hbefore 0 m0 (Nat.succ_pos i) rfl
      unfold setBGALinkFirst
      simp only [h0, if_neg, List.get?_cons_succ]
      exact ih i (by simpa using hget)
        (fun j mtj hj hg => hbefore (j + 1) mtj (by omega) (by simpa using hg))

theorem setBGALinkFirst_get_other (mid : Int) (link : GoStr) (ms : List Match)
    (i : Nat) (mt : Match) (hget : ms.get? i = some mt)
    (h : mt.ID ≠ mid ∨ ∃ j mtj, j < i ∧ ms.get? j = some mtj ∧ mtj.ID = mid) :
    (setBGALinkFirst mid link ms).get? i = some mt := by
  induction ms generalizing i with
  | nil => simp at hget
  | cons m0 ms ih =>
    unfold setBGALinkFirst
    by_cases h0 : m0.ID = mid
    · cases i with
      | zero =>
        simp only [List.get?_cons_zero, Option.some.injEq] at hget
        subst hget
        rcases h with h | ⟨j, mtj, hj, _, _⟩
        · exact absurd h0 h
        · omega
      | succ i =>
        simp only [h0, if_pos, List.get?_cons_succ]
        simpa using hget
    · cases i with
      | zero =>
        simp only [List.get?_cons_zero, Option.some.injEq] at hget
        subst hget
        simp [h0]
      | succ i =>
        simp only [h0, if_neg, List.get?_cons_succ]
        refine ih i (by simpa using hget) ?_
        rcases h with h | ⟨j, mtj, hj, hg, hid⟩
        · exact Or.inl h
        · cases j with
          | zero =>
            simp only [List.get?_cons_zero, Option.some.injEq] at hg
            subst hg
            exact absurd hid h0
          | succ j =>
            exact Or.inr ⟨j, mtj, by omega, by simpa using hg, hid⟩

theorem handleTournamentCreated_success (env : Env) (m : FixtureModel)
    (t : TournamentCreatedMsg) (rn : Nat) (hs : t.success = true)
    (hrn : t.roundNum = (rn : Int)) (hlen : rn < m.division.Rounds.length) :
    m.handleTournamentCreated env t =
      some ({ m with
        division := { m.division with Rounds := (m.division.Rounds.set rn
          { (m.division.Rounds.getD rn defaultRound) with
            Matches := setBGALinkFirst t.matchID t.link
              (m.division.Rounds.getD rn defaultRound).Matches }) }
        statusMessage :=
          if env.clipboardOk then
            "Tournament created successfully! Link copied to clipboard.".toList
          else
            "Tournament created successfully! (Failed to copy link to clipboard)".toList },
      some (.tick 3)) := by
  have hlen' : t.roundNum < (m.division.Rounds.length : Int) := by
    rw [hrn]; exact_mod_cast hlen
  have hpos : ¬ t.roundNum < 0 := by rw [hrn]; omega
  have htn : t.roundNum.toNat = rn := by rw [hrn]; exact Int.toNat_natCast rn
  unfold FixtureModel.handleTournamentCreated
  simp [hs, hlen', hpos, htn]

/-- C2: a successful submission result carrying round index `rn` and match
ID `t.matchID` mutates only the reference link of the first match with that
ID inside round `rn`: the division name, the number of rounds, every other
round, the round's own metadata and match count, and every field of every
match other than that first hit's `BGALink` are unchanged. -/
theorem successful_submission_updates_only_first_match_link :
    ∀ (env : Env) (m : FixtureModel) (t : TournamentCreatedMsg) (rn : Nat),
      m.showDatePicker = false → m.showConfirmation = false →
      t.success = true → t.roundNum = (rn : Int) → rn < m.division.Rounds.length →
      ∃ m' : FixtureModel,
        m.update env (.tournamentCreated t) = some (m', some (.tick 3)) ∧
        m'.division.Name = m.division.Name ∧
        m'.division.Rounds.length = m.division.Rounds.length ∧
        (∀ j : Nat, j ≠ rn → m'.division.Rounds.get? j = m.division.Rounds.get? j) ∧
        (∀ rd rd' : Round,
          m.division.Rounds.get? rn = some rd →
          m'.division.Rounds.get? rn = some rd' →
          rd'.Number = rd.Number ∧ rd'.DateRange = rd.DateRange ∧
          rd'.Matches.length = rd.Matches.length ∧
          (∀ (i : Nat) (mt mt' : Match),
            rd.Matches.get? i = some mt → rd'.Matches.get? i = some mt' →
            ((mt.ID = t.matchID ∧
                (∀ j mtj, j < i → rd.Matches.get? j = some mtj → mtj.ID ≠ t.matchID)) →
              mt' = { mt with BGALink := t.link }) ∧
            ((mt.ID ≠ t.matchID ∨
                ∃ j mtj, j < i ∧ rd.Matches.get? j = some mtj ∧ mtj.ID = t.matchID) →
              mt' = mt))) := by
  intro env m t rn h1 h2 hs hrn hlen
  have hdisp : m.update env (.tournamentCreated t) = m.handleTournamentCreated env t := by
    unfold FixtureModel.update
    rw [handleSubModelMessages_inactive env m _ h1 h2]
    rfl
  rw [hdisp, handleTournamentCreated_success env m t rn hs hrn hlen]
  refine ⟨_, rfl, rfl, ?_, ?_, ?_⟩
  · simp [setBGALinkFirst_length]
  · intro j hj
    rw [List.get?_set_of_lt' _ m.division.Rounds hlen, if_neg (fun h => hj h.symm)]
  · intro rd rd' hrd hrd'
    have hgetD : m.division.Rounds.getD rn defaultRound = rd := by
      rw [List.getD_eq_getElem?_getD, ← List.get?_eq_getElem?, hrd]
      rfl
    rw [List.get?_set_of_lt' _ m.division.Rounds hlen, if_pos rfl, hgetD] at hrd'
    simp only [Option.some.injEq] at hrd'
    subst hrd'
    refine ⟨rfl, rfl, setBGALinkFirst_length _ _ _, ?_⟩
    intro i mt mt' hget hget'
    constructor
    · rintro ⟨hid, hbefore⟩
      have hx := setBGALinkFirst_get_first t.matchID t.link rd.Matches i mt hget hid hbefore
      dsimp only at hget'
      rw [hx] at hget'
      simpa using hget'.symm
    · intro hcase
      have hx := setBGALinkFirst_get_other t.matchID t.link rd.Matches i mt hget hcase
      dsimp only at hget'
      rw [hx] at hget'
      simpa using hget'.symm

/-- Witness for C2: the sample success result applied to the concrete
two-round division. -/
theorem successful_submission_witness :
    ∃ m' : FixtureModel,
      sampleModel.update sampleEnv
          (.tournamentCreated (runCreateTournamentWithDateTime senvAllOK sampleReq)) =
        some (m', some (.tick 3)) ∧
      m'.division.Name = sampleModel.division.Name ∧
      m'.division.Rounds.length = sampleModel.division.Rounds.length ∧
      (∀ j : Nat, j ≠ 0 → m'.division.Rounds.get? j = sampleModel.division.Rounds.get? j) ∧
      (∀ rd rd' : Round,
        sampleModel.division.Rounds.get? 0 = some rd →
        m'.division.Rounds.get? 0 = some rd' →
        rd'.Number = rd.Number ∧ rd'.DateRange = rd.DateRange ∧
        rd'.Matches.length = rd.Matches.length ∧
        (∀ (i : Nat) (mt mt' : Match),
          rd.Matches.get? i = some mt → rd'.Matches.get? i = some mt' →
          ((mt.ID = (runCreateTournamentWithDateTime senvAllOK sampleReq).matchID ∧
              (∀ j mtj, j < i → rd.Matches.get? j = some mtj →
                mtj.ID ≠ (runCreateTournamentWithDateTime senvAllOK sampleReq).matchID)) →
            mt' = { mt with BGALink := (runCreateTournamentWithDateTime senvAllOK sampleReq).link }) ∧
          ((mt.ID ≠ (runCreateTournamentWithDateTime senvAllOK sampleReq).matchID ∨
              ∃ j mtj, j < i ∧ rd.Matches.get? j = some mtj ∧
                mtj.ID = (runCreateTournamentWithDateTime senvAllOK sampleReq).matchID) →
            mt' = mt))) :=
  successful_submission_updates_only_first_match_link sampleEnv sampleModel
    (runCreateTournamentWithDateTime senvAllOK sampleReq) 0 rfl rfl rfl (by decide) (by decide)


/-! ## C5: the played flag -/

/-- C5: whenever `ParseMatch` accepts a row, the resulting `Played` flag is
`true` exactly when the row's ninth CSV field (index 8) is the literal
string `"1"`. -/
theorem parseMatch_played_iff_field8_one :
    ∀ (line : GoStr) (mt : Match), ParseMatch line = .ok mt →
      ∀ recs : List GoStr, readCSVLine line = .ok recs →
        (mt.Played = true ↔ recs.getD 8 [] = "1".toList) := by
  intro line mt hok recs hrecs
  unfold ParseMatch at hok
  rw [hrecs] at hok
  dsimp only at hok
  by_cases h10 : recs.length < 10
  · simp [h10] at hok
  · rw [if_neg h10] at hok
    cases h0 : goAtoi (recs.getD 0 []) with
    | none => rw [h0] at hok; exact absurd hok (by simp)
    | some id =>
      rw [h0] at hok
      cases h2 : goAtoi (recs.getD 2 []) with
      | none => rw [h2] at hok; exact absurd hok (by simp)
      | some hs =>
        rw [h2] at hok
        cases h3 : goAtoi (recs.getD 3 []) with
        | none => rw [h3] at hok; exact absurd hok (by simp)
        | some as =>
          rw [h3] at hok
          simp only [Except.ok.injEq] at hok
          subst hok
          simp [beq_iff_eq]

/-- Witness for C5 at the concrete Scenario A row (played flag `"1"`). -/
theorem parseMatch_played_iff_witness :
    parsedScenarioA.Played = true ↔ recsScenarioA.getD 8 [] = "1".toList :=
  parseMatch_played_iff_field8_one scenarioARow parsedScenarioA rfl recsScenarioA rfl


/-! ## Go string-primitive lemmas -/

theorem goSplitFuel_congr (sep : GoStr) :
    ∀ (f₁ f₂ : Nat) (s : GoStr), s.length ≤ f₁ → s.length ≤ f₂ →
      goSplitFuel sep f₁ s = goSplitFuel sep f₂ s := by
  intro f₁
  induction f₁ with
  | zero =>
    intro f₂ s h1 h2
    cases s with
    | nil => cases f₂ <;> rfl
    | cons c rest => simp at h1
  | succ f ih =>
    intro f₂ s h1 h2
    cases s with
    | nil => cases f₂ <;> rfl
    | cons c rest =>
      cases f₂ with
      | zero => simp at h2
      | succ g =>
        cases sep with
        | nil => rfl
        | cons s0 sep' =>
          show goSplitFuel (s0 :: sep') (f + 1) (c :: rest)
            = goSplitFuel (s0 :: sep') (g + 1) (c :: rest)
          simp only [goSplitFuel]
          by_cases hp : goHasPre (s0 :: sep') (c :: rest) = true
          · simp only [hp, if_true]
            have := ih g (rest.drop sep'.length)
              (by simp only [List.length_drop]; simp at h1; omega)
              (by simp only [List.length_drop]; simp at h2; omega)
            rw [this]
          · simp only [hp]
            have hrec := ih g rest (by simp at h1; omega) (by simp at h2; omega)
            rw [hrec]
            rfl

theorem goSplit_eq (sep s : GoStr) :
    goSplit sep s = (match s with
      | [] => [([] : GoStr)]
      | c :: rest =>
        match sep with
        | [] => [c :: rest]
        | s0 :: sep' =>
          if goHasPre (s0 :: sep') (c :: rest) then
            [] :: goSplit (s0 :: sep') (rest.drop sep'.length)
          else
            match goSplit (s0 :: sep') rest with
            | [] => [[c]]
            | h :: t => (c :: h) :: t) := by
  cases s with
  | nil => rfl
  | cons c rest =>
    cases sep with
    | nil => rfl
    | cons s0 sep' =>
      show goSplitFuel (s0 :: sep') (rest.length + 1) (c :: rest) = _
      simp only [goSplitFuel]
      by_cases hp : goHasPre (s0 :: sep') (c :: rest) = true
      · simp only [hp, if_true]
        have := goSplitFuel_congr (s0 :: sep') rest.length
          (rest.drop sep'.length).length (rest.drop sep'.length)
          (by simp only [List.length_drop]; omega) (le_refl _)
        rw [this]
        rfl
      · simp only [hp]
        rfl

theorem goHasPre_iff (p s : GoStr) : goHasPre p s = true ↔ p <+: s := by
  induction p generalizing s with
  | nil => simp [goHasPre, List.nil_prefix]
  | cons a as ih =>
    cases s with
    | nil =>
      simp [goHasPre]
    | cons b bs =>
      simp [goHasPre, List.cons_prefix_cons, ih, And.comm]

theorem goHasPre_append (p b : GoStr) : goHasPre p (p ++ b) = true :=
  (goHasPre_iff p _).mpr (List.prefix_append p b)

theorem goHasPre_self (p : GoStr) : goHasPre p p = true :=
  (goHasPre_iff p p).mpr (List.prefix_refl p)

theorem goHasPre_eq_append (p s : GoStr) (h : goHasPre p s = true) :
    s = p ++ s.drop p.length := by
  obtain ⟨t, ht⟩ := (goHasPre_iff p s).mp h
  rw [← ht, List.drop_left]

theorem goHasSuf_iff (pat s : GoStr) : goHasSuf pat s = true ↔ pat <:+ s := by
  unfold goHasSuf
  rw [goHasPre_iff, List.reverse_prefix]

theorem goContains_iff (sub s : GoStr) :
    goContains sub s = true ↔ ∃ t, t <:+ s ∧ goHasPre sub t = true := by
  induction s with
  | nil =>
    constructor
    · intro h
      have hsub : sub = [] := by
        cases sub with
        | nil => rfl
        | cons a as => simp [goContains] at h
      subst hsub
      exact ⟨[], List.suffix_refl [], rfl⟩
    · rintro ⟨t, hts, hp⟩
      have ht : t = [] := List.eq_nil_of_suffix_nil hts
      subst ht
      cases sub with
      | nil => rfl
      | cons a as => simp [goHasPre] at hp
  | cons c rest ih =>
    simp only [goContains, Bool.or_eq_true, ih]
    constructor
    · rintro (h | ⟨t, hts, hp⟩)
      · exact ⟨c :: rest, List.suffix_refl _, h⟩
      · exact ⟨t, hts.trans (List.suffix_cons c rest), hp⟩
    · rintro ⟨t, hts, hp⟩
      rcases List.suffix_cons_iff.mp hts with h | h
      · subst h
        exact Or.inl hp
      · exact Or.inr ⟨t, h, hp⟩

theorem goContains_of_suffix_pre {sub s t : GoStr} (hts : t <:+ s)
    (hp : goHasPre sub t = true) : goContains sub s = true :=
  (goContains_iff sub s).mpr ⟨t, hts, hp⟩

theorem goContains_parts (sub a b : GoStr) : goContains sub (a ++ sub ++ b) = true := by
  rw [List.append_assoc]
  exact goContains_of_suffix_pre (List.suffix_append a (sub ++ b)) (goHasPre_append sub b)

theorem goContains_append_self (sub a : GoStr) : goContains sub (a ++ sub) = true :=
  goContains_of_suffix_pre (List.suffix_append a sub) (goHasPre_self sub)

theorem goSplit_ne_nil (sep s : GoStr) : goSplit sep s ≠ [] := by
  rw [goSplit_eq]
  cases s with
  | nil => simp
  | cons c rest =>
    cases sep with
    | nil => simp
    | cons s0 sep' =>
      by_cases h : goHasPre (s0 :: sep') (c :: rest) = true
      · simp [h]
      · cases hrec : goSplit (s0 :: sep') rest with
        | nil => simp [h, hrec]
        | cons x xs => simp [h, hrec]

theorem goSplit_append (sep a b : GoStr) (hsep : sep ≠ [])
    (hov : ∀ t, t ≠ [] → t <:+ a → goHasPre sep (t ++ sep ++ b) = false) :
    goSplit sep (a ++ sep ++ b) = a :: goSplit sep b := by
  obtain ⟨s0, sep', rfl⟩ : ∃ s0 sep', sep = s0 :: sep' := by
    cases sep with
    | nil => exact absurd rfl hsep
    | cons s0 sep' => exact ⟨s0, sep', rfl⟩
  induction a with
  | nil =>
    have hpre : goHasPre (s0 :: sep') (s0 :: (sep' ++ b)) = true := by
      have := goHasPre_append (s0 :: sep') b
      simpa using this
    show goSplit (s0 :: sep') (s0 :: (sep' ++ b)) = [] :: goSplit (s0 :: sep') b
    rw [goSplit_eq]
    simp [hpre, List.drop_left]
  | cons x a' ih =>
    have hx : goHasPre (s0 :: sep') ((x :: a') ++ (s0 :: sep') ++ b) = false :=
      hov (x :: a') (by simp) (List.suffix_refl _)
    have ih' := ih (fun t ht hts => hov t ht (hts.trans (List.suffix_cons x a')))
    cases hrec : goSplit (s0 :: sep') (a' ++ (s0 :: sep') ++ b) with
    | nil => exact absurd hrec (goSplit_ne_nil _ _)
    | cons h t =>
      rw [hrec] at ih'
      simp only [List.cons.injEq] at ih'
      obtain ⟨rfl, rfl⟩ := ih'
      simp only [List.append_assoc, List.cons_append] at hx hrec ⊢
      rw [goSplit_eq]
      simp [hx, hrec]

theorem goSplit_of_not_contains (sep s : GoStr) (hsep : sep ≠ [])
    (h : goContains sep s = false) : goSplit sep s = [s] := by
  obtain ⟨s0, sep', rfl⟩ : ∃ s0 sep', sep = s0 :: sep' := by
    cases sep with
    | nil => exact absurd rfl hsep
    | cons s0 sep' => exact ⟨s0, sep', rfl⟩
  induction s with
  | nil => rfl
  | cons c rest ih =>
    have h1 : goHasPre (s0 :: sep') (c :: rest) = false := by
      cases hh : goHasPre (s0 :: sep') (c :: rest) with
      | false => rfl
      | true => simp [goContains, hh] at h
    have h2 : goContains (s0 :: sep') rest = false := by
      cases hh : goContains (s0 :: sep') rest with
      | false => rfl
      | true => simp [goContains, hh] at h
    rw [goSplit_eq]
    simp only [h1, Bool.false_eq_true, if_false]
    rw [ih h2]

theorem goJoin_cons_ne (x : GoStr) (xs : List GoStr) (sep : GoStr) (h : xs ≠ []) :
    goJoin (x :: xs) sep = x ++ sep ++ goJoin xs sep := by
  cases xs with
  | nil => exact absurd rfl h
  | cons y ys => rfl

theorem goSplit_join (sep s : GoStr) : goJoin (goSplit sep s) sep = s := by
  generalize hn : s.length = n
  induction n using Nat.strong_induction_on generalizing s with
  | _ n ih =>
    subst hn
    cases s with
    | nil => simp [goSplit, goSplitFuel, goJoin]
    | cons c rest =>
      cases sep with
      | nil => simp [goSplit, goSplitFuel, goJoin]
      | cons s0 sep' =>
        by_cases hpre : goHasPre (s0 :: sep') (c :: rest) = true
        · have hsplit : goSplit (s0 :: sep') (c :: rest)
              = [] :: goSplit (s0 :: sep') (rest.drop sep'.length) := by
            rw [goSplit_eq]
            simp [hpre]
          rw [hsplit]
          have hne := goSplit_ne_nil (s0 :: sep') (rest.drop sep'.length)
          rw [goJoin_cons_ne [] _ _ hne]
          rw [ih (rest.drop sep'.length).length
            (by simp [List.length_drop]; omega) _ rfl]
          have heq := goHasPre_eq_append (s0 :: sep') (c :: rest) hpre
          simpa using heq.symm
        · cases hsplit : goSplit (s0 :: sep') rest with
          | nil => exact absurd hsplit (goSplit_ne_nil _ _)
          | cons h t =>
            have hstep : goSplit (s0 :: sep') (c :: rest) = (c :: h) :: t := by
              rw [goSplit_eq]
              simp [hpre, hsplit]
            rw [hstep]
            have hrec := ih rest.length (by simp) rest rfl
            rw [hsplit] at hrec
            cases t with
            | nil =>
              simp only [goJoin] at hrec ⊢
              rw [hrec]
            | cons t0 ts =>
              rw [goJoin_cons_ne _ _ _ (by simp)]
              rw [goJoin_cons_ne _ _ _ (by simp)] at hrec
              rw [← hrec]
              simp


/-! ## C9: the filename convention -/

theorem sepDash_eq : " - ".toList = [' ', '-', ' '] := rfl

theorem dashTail_eq : " -".toList = [' ', '-'] := rfl

theorem suffix_append_cases {t u v : GoStr} (h : t <:+ u ++ v) :
    t <:+ v ∨ ∃ u', u' <:+ u ∧ u' ≠ [] ∧ t = u' ++ v := by
  obtain ⟨w, hw⟩ := h
  have key : List.drop w.length (u ++ v) = t := by
    rw [← hw, List.drop_left]
  by_cases hlen : u.length ≤ w.length
  · left
    rw [List.drop_append_eq_append_drop, List.drop_eq_nil_of_le hlen,
      List.nil_append] at key
    rw [← key]
    exact List.drop_suffix _ _
  · right
    push_neg at hlen
    refine ⟨u.drop w.length, List.drop_suffix _ _, ?_, ?_⟩
    · intro hnil
      have := congrArg List.length hnil
      simp only [List.length_drop, List.length_nil] at this
      omega
    · rw [List.drop_append_eq_append_drop,
        Nat.sub_eq_zero_of_le (le_of_lt hlen), List.drop_zero] at key
      exact key.symm

theorem sepDash_no_overlap (a b : GoStr)
    (ha : goContains " - ".toList a = false)
    (ha2 : goHasSuf " -".toList a = false) :
    ∀ t, t ≠ [] → t <:+ a → goHasPre " - ".toList (t ++ " - ".toList ++ b) = false := by
  intro t ht hts
  rcases t with _ | ⟨x, _ | ⟨y, _ | ⟨z, t'⟩⟩⟩
  · exact absurd rfl ht
  · simp [sepDash_eq, goHasPre]
  · rw [← Bool.not_eq_true]
    intro htrue
    simp only [sepDash_eq, List.cons_append, List.nil_append, goHasPre,
      Bool.and_eq_true, beq_iff_eq] at htrue
    obtain ⟨hx, hy, -⟩ := htrue
    subst hx
    subst hy
    have : goHasSuf " -".toList a = true := by
      rw [goHasSuf_iff, dashTail_eq]
      exact hts
    rw [this] at ha2
    cases ha2
  · rw [← Bool.not_eq_true]
    intro htrue
    simp only [sepDash_eq, List.cons_append, List.nil_append, goHasPre,
      Bool.and_eq_true, beq_iff_eq] at htrue
    obtain ⟨hx, hy, hz, -⟩ := htrue
    subst hx
    subst hy
    subst hz
    have hpre : goHasPre " - ".toList (' ' :: '-' :: ' ' :: t') = true := by
      simp [sepDash_eq, goHasPre]
    have : goContains " - ".toList a = true := goContains_of_suffix_pre hts hpre
    rw [this] at ha
    cases ha

theorem sepDash_not_in_fix (c : GoStr) (hc : goContains " - ".toList c = false) :
    goContains " - ".toList (c ++ "-Fixture.csv".toList) = false := by
  rw [← Bool.not_eq_true]
  intro htrue
  obtain ⟨t, hts, hp⟩ := (goContains_iff _ _).mp htrue
  rcases suffix_append_cases hts with hfix | ⟨c', hsuf, hne, rfl⟩
  · have : goContains " - ".toList ("-Fixture.csv".toList) = true :=
      goContains_of_suffix_pre hfix hp
    exact absurd this (by decide)
  · rcases c' with _ | ⟨x, _ | ⟨y, _ | ⟨z, c''⟩⟩⟩
    · exact absurd rfl hne
    · simp [sepDash_eq, goHasPre] at hp
    · simp [sepDash_eq, goHasPre] at hp
    · simp only [sepDash_eq, List.cons_append, goHasPre,
        Bool.and_eq_true, beq_iff_eq] at hp
      obtain ⟨hx, hy, hz, -⟩ := hp
      subst hx
      subst hy
      subst hz
      have hpre : goHasPre " - ".toList (' ' :: '-' :: ' ' :: c'') = true := by
        simp [sepDash_eq, goHasPre]
      have : goContains " - ".toList c = true := goContains_of_suffix_pre hsuf hpre
      rw [this] at hc
      cases hc

theorem goHasSuf_append (c pat : GoStr) : goHasSuf pat (c ++ pat) = true :=
  (goHasSuf_iff pat _).mpr (List.suffix_append c pat)

theorem goTrimSuf_append (c pat : GoStr) : goTrimSuf (c ++ pat) pat = c := by
  unfold goTrimSuf
  rw [if_pos (goHasSuf_append c pat), List.length_append, Nat.add_sub_cancel,
    List.take_left]


theorem goSplit_convention (p q c : GoStr)
    (hp : goContains " - ".toList p = false) (hq : goContains " - ".toList q = false)
    (hc : goContains " - ".toList c = false)
    (hp2 : goHasSuf " -".toList p = false) (hq2 : goHasSuf " -".toList q = false) :
    goSplit " - ".toList
      (p ++ " - ".toList ++ q ++ " - ".toList ++ c ++ "-Fixture.csv".toList)
      = [p, q, c ++ "-Fixture.csv".toList] := by
  have hshape : p ++ " - ".toList ++ q ++ " - ".toList ++ c ++ "-Fixture.csv".toList
      = p ++ " - ".toList ++ (q ++ " - ".toList ++ (c ++ "-Fixture.csv".toList)) := by
    simp [List.append_assoc]
  rw [hshape]
  rw [goSplit_append _ p _ (by simp [sepDash_eq]) (sepDash_no_overlap p _ hp hp2)]
  rw [goSplit_append _ q _ (by simp [sepDash_eq]) (sepDash_no_overlap q _ hq hq2)]
  rw [goSplit_of_not_contains _ _ (by simp [sepDash_eq]) (sepDash_not_in_fix c hc)]

theorem divisionName_of_convention (p q c : GoStr)
    (hp : goContains " - ".toList p = false) (hq : goContains " - ".toList q = false)
    (hc : goContains " - ".toList c = false)
    (hp2 : goHasSuf " -".toList p = false) (hq2 : goHasSuf " -".toList q = false) :
    divisionNameFromFilename
      (p ++ " - ".toList ++ q ++ " - ".toList ++ c ++ "-Fixture.csv".toList) = c := by
  have hsplit := goSplit_convention p q c hp hq hc hp2 hq2
  have hcont1 : goContains " - ".toList
      (p ++ " - ".toList ++ q ++ " - ".toList ++ c ++ "-Fixture.csv".toList) = true := by
    have hshape : p ++ " - ".toList ++ q ++ " - ".toList ++ c ++ "-Fixture.csv".toList
        = p ++ " - ".toList ++ (q ++ " - ".toList ++ (c ++ "-Fixture.csv".toList)) := by
      simp [List.append_assoc]
    rw [hshape]
    exact goContains_parts _ p _
  have hcont2 : goContains "-Fixture.csv".toList
      (p ++ " - ".toList ++ q ++ " - ".toList ++ c ++ "-Fixture.csv".toList) = true :=
    goContains_append_self _ _
  unfold divisionNameFromFilename
  rw [hcont1, hcont2, hsplit]
  simp only [Bool.and_self, if_true, List.length_cons, List.length_nil]
  rw [if_pos (by omega)]
  rw [show ([p, q, c ++ "-Fixture.csv".toList] : List GoStr).getLastD []
    = c ++ "-Fixture.csv".toList from rfl]
  rw [goHasSuf_append, if_pos rfl, goTrimSuf_append]

theorem goJoin_append_singleton (init : List GoStr) (z sep : GoStr) (h : init ≠ []) :
    goJoin (init ++ [z]) sep = goJoin init sep ++ sep ++ z := by
  induction init with
  | nil => exact absurd rfl h
  | cons x xs ih =>
    cases xs with
    | nil => simp [goJoin]
    | cons y ys =>
      rw [show (x :: y :: ys) ++ [z] = x :: ((y :: ys) ++ [z]) from rfl]
      rw [goJoin_cons_ne x ((y :: ys) ++ [z]) sep (by simp)]
      rw [ih (by simp)]
      rw [goJoin_cons_ne x (y :: ys) sep (by simp)]
      simp [List.append_assoc]

theorem divisionName_nonempty_convention (filename : GoStr)
    (hne : divisionNameFromFilename filename ≠ []) :
    ∃ p q : GoStr, filename
      = p ++ " - ".toList ++ q ++ " - ".toList
        ++ divisionNameFromFilename filename ++ "-Fixture.csv".toList := by
  generalize hname : divisionNameFromFilename filename = name at hne ⊢
  unfold divisionNameFromFilename at hname
  by_cases hA : goContains " - ".toList filename = true
  case neg =>
    rw [Bool.not_eq_true] at hA
    rw [hA] at hname
    simp at hname
    exact absurd hname hne
  by_cases hB : goContains "-Fixture.csv".toList filename = true
  case neg =>
    rw [Bool.not_eq_true] at hB
    rw [hA, hB] at hname
    simp at hname
    exact absurd hname hne
  rw [hA, hB] at hname
  simp only [Bool.and_self, if_true] at hname
  by_cases hlen : (goSplit " - ".toList filename).length ≥ 3
  case neg =>
    rw [if_neg hlen] at hname
    exact absurd hname.symm hne
  rw [if_pos hlen] at hname
  by_cases hsuf : goHasSuf "-Fixture.csv".toList
      ((goSplit " - ".toList filename).getLastD []) = true
  case neg =>
    rw [Bool.not_eq_true] at hsuf
    rw [hsuf] at hname
    simp at hname
    exact absurd hname hne
  rw [hsuf] at hname
  simp only [if_true] at hname
  obtain ⟨pre, hpre⟩ := (goHasSuf_iff _ _).mp hsuf
  -- hpre : pre ++ "-Fixture.csv".toList = getLastD parts []
  have htrim : name = pre := by
    rw [← hname, ← hpre, goTrimSuf_append]
  have hparts_ne : goSplit " - ".toList filename ≠ [] := goSplit_ne_nil _ _
  have hlast : (goSplit " - ".toList filename).getLastD []
      = (goSplit " - ".toList filename).getLast hparts_ne := by
    rw [List.getLastD_eq_getLast?, List.getLast?_eq_getLast _ hparts_ne]
    rfl
  have hjoin := goSplit_join " - ".toList filename
  have hdecomp := List.dropLast_append_getLast hparts_ne
  set parts := goSplit " - ".toList filename with hparts
  have hinitlen : parts.dropLast.length ≥ 2 := by
    rw [List.length_dropLast]
    omega
  rcases hinit : parts.dropLast with _ | ⟨a, init'⟩
  · rw [hinit] at hinitlen
    simp at hinitlen
  rcases init' with _ | ⟨b0, init''⟩
  · rw [hinit] at hinitlen
    simp at hinitlen
  refine ⟨a, goJoin (b0 :: init'') " - ".toList, ?_⟩
  have hjoin2 : goJoin (parts.dropLast ++ [parts.getLast hparts_ne]) " - ".toList
      = filename := by
    rw [hdecomp]
    exact hjoin
  rw [hinit] at hjoin2
  rw [goJoin_append_singleton _ _ _ (by simp)] at hjoin2
  rw [goJoin_cons_ne _ _ _ (by simp)] at hjoin2
  rw [← hjoin2, htrim]
  have hlastval : parts.getLast hparts_ne = pre ++ "-Fixture.csv".toList := by
    rw [← hlast, ← hpre]
  rw [hlastval]
  simp [List.append_assoc]

/-- C9 counterexample: the filename `"A - B - C-Fixture.txt"` matches the
spec's convention `"<prefix> - <period> - <DivisionCode>-Fixture.<ext>"`
with extension `txt`, but the code hard-codes the `"-Fixture.csv"` suffix
and leaves the name empty instead of `"C"`. -/
theorem c9_counterexample_non_csv_extension :
    divisionNameFromFilename ("A - B - C-Fixture.txt".toList) = [] ∧
    divisionNameFromFilename ("A - B - C-Fixture.txt".toList) ≠ "C".toList := by
  constructor
  · decide
  · decide

/-- C9 (amended): the extraction succeeds exactly for the `.csv` form of the
convention.  For every filename `<p> - <q> - <c>-Fixture.csv` whose three
segments contain no `" - "` delimiter (and whose prefix segments do not end
in `" -"`), the Division name is set to `<c>`; conversely, whenever the
extraction yields a non-empty name, the filename has exactly that
`.csv`-suffixed shape — so any filename not of that shape is left with an
empty name, without an error. -/
theorem division_name_extraction_characterization :
    (∀ p q c : GoStr,
      goContains " - ".toList p = false → goContains " - ".toList q = false →
      goContains " - ".toList c = false →
      goHasSuf " -".toList p = false → goHasSuf " -".toList q = false →
      divisionNameFromFilename
        (p ++ " - ".toList ++ q ++ " - ".toList ++ c ++ "-Fixture.csv".toList) = c) ∧
    (∀ filename : GoStr, divisionNameFromFilename filename ≠ [] →
      ∃ p q : GoStr, filename
        = p ++ " - ".toList ++ q ++ " - ".toList
          ++ divisionNameFromFilename filename ++ "-Fixture.csv".toList) :=
  ⟨divisionName_of_convention, divisionName_nonempty_convention⟩

/-- Witness for the amended C9 on a concrete league filename. -/
theorem division_name_extraction_witness :
    divisionNameFromFilename
      ("Liga Argentina".toList ++ " - ".toList ++ "1era Temporada".toList
        ++ " - ".toList ++ "E".toList ++ "-Fixture.csv".toList) = "E".toList ∧
    ∃ p q : GoStr, ("A - B - C-Fixture.csv".toList : GoStr)
      = p ++ " - ".toList ++ q ++ " - ".toList
        ++ divisionNameFromFilename ("A - B - C-Fixture.csv".toList)
        ++ "-Fixture.csv".toList :=
  ⟨division_name_extraction_characterization.1 "Liga Argentina".toList
     "1era Temporada".toList "E".toList (by decide) (by decide) (by decide)
     (by decide) (by decide),
   division_name_extraction_characterization.2 "A - B - C-Fixture.csv".toList
     (by decide)⟩


/-! ## C6 / C10: scan machinery -/

theorem dropWhile_head_false {p : Char → Bool} :
    ∀ {l : GoStr} {x : Char} {xs : GoStr}, l.dropWhile p = x :: xs → p x = false := by
  intro l
  induction l with
  | nil => intro x xs h; simp at h
  | cons a l ih =>
    intro x xs h
    rw [List.dropWhile_cons] at h
    by_cases ha : p a = true
    · rw [if_pos ha] at h
      exact ih h
    · rw [if_neg ha] at h
      simp only [List.cons.injEq] at h
      rw [← h.1]
      exact Bool.eq_false_iff.mpr ha

theorem dropWhile_of_head_false {p : Char → Bool} {l : GoStr}
    (h : ∀ x xs, l = x :: xs → p x = false) : l.dropWhile p = l := by
  cases l with
  | nil => rfl
  | cons a l =>
    rw [List.dropWhile_cons, if_neg]
    rw [h a l rfl]
    simp

theorem getLast?_dropWhile {p : Char → Bool} {l : GoStr}
    (h : l.dropWhile p ≠ []) : (l.dropWhile p).getLast? = l.getLast? := by
  obtain ⟨w, hw⟩ := List.dropWhile_suffix (l := l) p
  conv_rhs => rw [← hw]
  rw [List.getLast?_append_of_ne_nil w h]

theorem mem_goTrimSpace {x : Char} {l : GoStr} (h : x ∈ goTrimSpace l) : x ∈ l := by
  unfold goTrimSpace at h
  rw [List.mem_reverse] at h
  have h2 := (List.dropWhile_sublist isSpaceGo).subset h
  rw [List.mem_reverse] at h2
  exact (List.dropWhile_sublist isSpaceGo).subset h2

theorem goTrimSpace_idem (s : GoStr) : goTrimSpace (goTrimSpace s) = goTrimSpace s := by
  set p := isSpaceGo with hp
  set u := s.dropWhile p with hu
  set w := u.reverse.dropWhile p with hw
  have hts : goTrimSpace s = w.reverse := rfl
  have step1 : w.reverse.dropWhile p = w.reverse := by
    apply dropWhile_of_head_false
    intro x xs hx
    have hwne : w ≠ [] := by
      intro hnil
      rw [hnil] at hx
      simp at hx
    have hhead : w.reverse.head? = some x := by
      rw [hx]
      rfl
    rw [List.head?_reverse] at hhead
    rw [getLast?_dropWhile hwne, List.getLast?_reverse] at hhead
    obtain ⟨utail, hutail⟩ : ∃ utail, u = x :: utail := by
      cases hu2 : u with
      | nil => rw [hu2] at hhead; simp at hhead
      | cons a as =>
        rw [hu2] at hhead
        simp only [List.head?_cons, Option.some.injEq] at hhead
        exact ⟨as, by rw [hhead]⟩
    exact dropWhile_head_false (hu ▸ hutail)
  have step2 : w.dropWhile p = w := by
    apply dropWhile_of_head_false
    intro x xs hx
    exact dropWhile_head_false (hw ▸ hx)
  rw [hts]
  show ((w.reverse.dropWhile p).reverse.dropWhile p).reverse = w.reverse
  rw [step1, List.reverse_reverse, step2]


theorem goContains_single (ch : Char) (x : GoStr) :
    goContains [ch] x = true ↔ ch ∈ x := by
  induction x with
  | nil => simp [goContains]
  | cons y ys ih =>
    simp [goContains, goHasPre, ih, List.mem_cons]

theorem goSplit_single_not_mem (c : Char) (s : GoStr) :
    ∀ l ∈ goSplit [c] s, c ∉ l := by
  induction s with
  | nil =>
    intro l hl
    rw [goSplit_eq] at hl
    simp at hl
    simp [hl]
  | cons x rest ih =>
    intro l hl
    rw [goSplit_eq] at hl
    by_cases hpre : goHasPre [c] (x :: rest) = true
    · simp only [hpre, if_true, List.mem_cons, List.length_nil, List.drop_zero] at hl
      rcases hl with rfl | hl
      · simp
      · exact ih l hl
    · dsimp only at hl
      rw [if_neg hpre] at hl
      have hcx : (c == x) = false := by
        cases hcx : (c == x) with
        | false => rfl
        | true => exact absurd (by simp [goHasPre, hcx]) hpre
      cases hrec : goSplit [c] rest with
      | nil => exact absurd hrec (goSplit_ne_nil _ _)
      | cons h t =>
        rw [hrec] at hl
        simp only [List.mem_cons] at hl
        rcases hl with rfl | hl
        · intro hmem
          rcases List.mem_cons.mp hmem with rfl | hmem
          · simp at hcx
          · exact ih h (by rw [hrec]; exact List.mem_cons_self h t) hmem
        · exact ih l (by rw [hrec]; exact List.mem_cons_of_mem h hl)

theorem goSplit_single_join (c : Char) (ls : List GoStr) (hls : ls ≠ [])
    (h : ∀ l ∈ ls, c ∉ l) :
    goSplit [c] (goJoin ls [c]) = ls := by
  induction ls with
  | nil => exact absurd rfl hls
  | cons x xs ih =>
    cases xs with
    | nil =>
      show goSplit [c] x = [x]
      apply goSplit_of_not_contains _ _ (by simp)
      cases hcc : goContains [c] x with
      | false => rfl
      | true => exact absurd ((goContains_single c x).mp hcc) (h x (by simp))
    | cons y ys =>
      rw [goJoin_cons_ne x (y :: ys) [c] (by simp)]
      rw [goSplit_append [c] x (goJoin (y :: ys) [c]) (by simp) ?hov]
      · rw [ih (by simp) (fun l hl => h l (List.mem_cons_of_mem _ hl))]
      case hov =>
        intro t ht hts
        rcases t with _ | ⟨t0, t'⟩
        · exact absurd rfl ht
        · have ht0 : t0 ∈ x := hts.subset (by simp)
          have hne : (c == t0) = false := by
            rw [beq_eq_false_iff_ne]
            intro he
            exact h x (by simp) (he ▸ ht0)
          simp [goHasPre, hne]

theorem parseRoundMatches_has_error (ls : List GoStr) (l : GoStr)
    (hmem : l ∈ ls) (hne : goTrimSpace l ≠ [])
    (herr : ∃ e, ParseMatch (goTrimSpace l) = .error e) :
    ∀ i : Nat, ∃ e', parseRoundMatches i ls = .error e' := by
  induction ls with
  | nil => simp at hmem
  | cons l0 ls' ih =>
    intro i
    unfold parseRoundMatches
    by_cases hskip : (goTrimSpace l0).isEmpty = true
    · rcases List.mem_cons.mp hmem with rfl | hmem'
      · exact absurd (List.isEmpty_iff.mp hskip) hne
      · simp only [hskip, if_true]
        exact ih hmem' (i + 1)
    · simp only [hskip, Bool.false_eq_true, if_false]
      cases hpm : ParseMatch (goTrimSpace l0) with
      | error e => exact ⟨.matchLine (i + 1) e, rfl⟩
      | ok m =>
        rcases List.mem_cons.mp hmem with rfl | hmem'
        · obtain ⟨e, he⟩ := herr
          rw [hpm] at he
          cases he
        · obtain ⟨e', he'⟩ := ih hmem' (i + 1)
          rw [he']
          exact ⟨e', rfl⟩

theorem ParseRound_error_of_bad_line (l0 : GoStr) (ls : List GoStr) (l : GoStr)
    (hnl : ∀ x ∈ l0 :: ls, ('\n' : Char) ∉ x)
    (hmem : l ∈ ls) (hne : goTrimSpace l ≠ [])
    (herr : ∃ e, ParseMatch (goTrimSpace l) = .error e) :
    ∃ e', ParseRound (goJoin (l0 :: ls) "\n".toList) = .error e' := by
  have hsplit : goSplit "\n".toList (goJoin (l0 :: ls) "\n".toList) = l0 :: ls := by
    rw [show ("\n".toList : GoStr) = ['\n'] from rfl]
    exact goSplit_single_join '\n' (l0 :: ls) (by simp) hnl
  obtain ⟨l1, ls', rfl⟩ : ∃ l1 ls', ls = l1 :: ls' := by
    cases ls with
    | nil => simp at hmem
    | cons a b => exact ⟨a, b, rfl⟩
  unfold ParseRound
  rw [hsplit]
  dsimp only
  cases hcsv : readCSVLine l0 with
  | error e => exact ⟨.roundHeader e, rfl⟩
  | ok headerRecord =>
    dsimp only
    by_cases hlen : headerRecord.length < 6
    · rw [if_pos hlen]
      exact ⟨.invalidHeaderFormat, rfl⟩
    · rw [if_neg hlen]
      obtain ⟨e', he'⟩ := parseRoundMatches_has_error (l1 :: ls') l hmem hne herr 1
      rw [he']
      exact ⟨e', rfl⟩


theorem divScan_skip_nonheader_empty_cur (l : GoStr) (rest : List GoStr)
    (acc : List Round) (hh : isHeaderLine (goTrimSpace l) = false) :
    divScan [] acc (l :: rest) = divScan [] acc rest := by
  simp only [divScan, hh]
  rw [if_neg (by simp : ¬ (false = true))]
  by_cases h3 : ((goTrimSpace l).isEmpty || goContains tenCommas (goTrimSpace l)) = true
  · rw [if_pos h3]
  · rw [if_neg h3]
    rw [if_pos (by decide : List.isEmpty ([] : List GoStr) = true)]

theorem divScan_drops_nonheader_block (ls : List GoStr)
    (h : ∀ l ∈ ls, isHeaderLine (goTrimSpace l) = false) :
    ∀ acc rest, divScan [] acc (ls ++ rest) = divScan [] acc rest := by
  induction ls with
  | nil => intro acc rest; rfl
  | cons l ls' ih =>
    intro acc rest
    have hstep :
        divScan [] acc (l :: (ls' ++ rest)) = divScan [] acc (ls' ++ rest) :=
      divScan_skip_nonheader_empty_cur l (ls' ++ rest) acc (h l (by simp))
    calc divScan [] acc ((l :: ls') ++ rest)
        = divScan [] acc (ls' ++ rest) := hstep
      _ = divScan [] acc rest := ih (fun x hx => h x (by simp [hx])) acc rest

theorem divScan_skip_sep_anywhere (l : GoStr)
    (hh : isHeaderLine (goTrimSpace l) = false)
    (hc : goContains tenCommas (goTrimSpace l) = true) :
    ∀ pre : List GoStr, ∀ cur acc post,
      divScan cur acc (pre ++ l :: post) = divScan cur acc (pre ++ post) := by
  intro pre
  induction pre with
  | nil =>
    intro cur acc post
    show divScan cur acc (l :: post) = divScan cur acc post
    simp only [divScan, hh, hc]
    rw [if_neg (by simp : ¬ (false = true))]
    rw [if_pos (by simp : ((goTrimSpace l).isEmpty || true) = true)]
  | cons p pre' ih =>
    intro cur acc post
    show divScan cur acc (p :: (pre' ++ l :: post)) =
        divScan cur acc (p :: (pre' ++ post))
    simp only [divScan]
    by_cases h1 : isHeaderLine (goTrimSpace p) = true
    · rw [if_pos h1, if_pos h1]
      by_cases h2 : List.isEmpty cur = true
      · rw [if_pos h2, if_pos h2]
        exact ih _ _ _
      · rw [if_neg h2, if_neg h2]
        cases ParseRound (goJoin cur "\n".toList) with
        | error e => rfl
        | ok r => exact ih _ _ _
    · rw [if_neg h1, if_neg h1]
      by_cases h3 : ((goTrimSpace p).isEmpty || goContains tenCommas (goTrimSpace p)) = true
      · rw [if_pos h3, if_pos h3]
        exact ih _ _ _
      · rw [if_neg h3, if_neg h3]
        by_cases h2 : List.isEmpty cur = true
        · rw [if_pos h2, if_pos h2]
          exact ih _ _ _
        · rw [if_neg h2, if_neg h2]
          exact ih _ _ _

/-- C10: `ParseDivision`'s scanning loop silently discards (a) every run of
non-header lines while no round block is open — in particular every data line
before the first `Duelo,Fecha` header — and (b) every line containing the
ten-comma separator run, wherever it occurs, even inside a round block: the
scan result is identical to the one on the input with those lines removed, so
they contribute nothing to the resulting `Division` and raise no error. -/
theorem preheader_and_separator_lines_discarded :
    (∀ ls rest acc, (∀ l ∈ ls, isHeaderLine (goTrimSpace l) = false) →
      divScan [] acc (ls ++ rest) = divScan [] acc rest) ∧
    (∀ l, isHeaderLine (goTrimSpace l) = false →
      goContains tenCommas (goTrimSpace l) = true →
      ∀ pre post cur acc,
        divScan cur acc (pre ++ l :: post) = divScan cur acc (pre ++ post)) :=
  ⟨fun ls rest acc h => divScan_drops_nonheader_block ls h acc rest,
   fun l hh hc pre post cur acc => divScan_skip_sep_anywhere l hh hc pre cur acc post⟩

/-- Witness for C10: the junk line before the first header and a full
ten-comma separator row are both discarded on concrete inputs. -/
theorem preheader_and_separator_lines_witness :
    divScan [] [] (["junk,1,2".toList] ++ ["Duelo,Fecha 1,,,,5/8".toList]) =
      divScan [] [] ["Duelo,Fecha 1,,,,5/8".toList] ∧
    divScan ["Duelo,Fecha 1,,,,5/8".toList] []
        (["1,h,2,3,a,,,,1,0".toList] ++ ",,,,,,,,,,".toList :: []) =
      divScan ["Duelo,Fecha 1,,,,5/8".toList] [] (["1,h,2,3,a,,,,1,0".toList] ++ []) :=
  ⟨preheader_and_separator_lines_discarded.1 ["junk,1,2".toList]
      ["Duelo,Fecha 1,,,,5/8".toList] [] (by decide),
   preheader_and_separator_lines_discarded.2 ",,,,,,,,,,".toList (by decide) (by decide)
      ["1,h,2,3,a,,,,1,0".toList] [] ["Duelo,Fecha 1,,,,5/8".toList] []⟩


/-- Invariant of the round blocks collected by the scanner: non-empty, every
line trimmed and newline-free, and every line after the header non-blank. -/
def BlockInv (b : List GoStr) : Prop :=
  b ≠ [] ∧ (∀ l ∈ b, goTrimSpace l = l ∧ ('\n' : Char) ∉ l) ∧
    (∀ l ∈ b.tail, l ≠ [])

theorem blocksFrom_inv (ls : List GoStr) :
    ∀ cur, (∀ l ∈ ls, ('\n' : Char) ∉ l) →
      (∀ l ∈ cur, goTrimSpace l = l ∧ ('\n' : Char) ∉ l) →
      (∀ l ∈ cur.tail, l ≠ []) →
      ∀ b ∈ blocksFrom cur ls, BlockInv b := by
  induction ls with
  | nil =>
    intro cur _ hcur htail b hb
    unfold blocksFrom at hb
    by_cases hc : List.isEmpty cur = true
    · rw [if_pos hc] at hb
      simp at hb
    · rw [if_neg hc] at hb
      rcases List.mem_singleton.mp hb with rfl
      exact ⟨fun hnil => hc (by simp [hnil]), hcur, htail⟩
  | cons l rest ih =>
    intro cur hnl hcur htail b hb
    have hnl' : ∀ x ∈ rest, ('\n' : Char) ∉ x :=
      fun x hx => hnl x (List.mem_cons_of_mem _ hx)
    have hline : goTrimSpace (goTrimSpace l) = goTrimSpace l ∧
        ('\n' : Char) ∉ goTrimSpace l :=
      ⟨goTrimSpace_idem l,
       fun hm => hnl l (List.mem_cons_self _ _) (mem_goTrimSpace hm)⟩
    simp only [blocksFrom] at hb
    by_cases h1 : isHeaderLine (goTrimSpace l) = true
    · rw [if_pos h1] at hb
      by_cases h2 : List.isEmpty cur = true
      · rw [if_pos h2] at hb
        exact ih [goTrimSpace l] hnl'
          (fun x hx => (List.mem_singleton.mp hx) ▸ hline) (by simp) b hb
      · rw [if_neg h2] at hb
        rcases List.mem_cons.mp hb with rfl | hb'
        · exact ⟨fun hnil => h2 (by simp [hnil]), hcur, htail⟩
        · exact ih [goTrimSpace l] hnl'
            (fun x hx => (List.mem_singleton.mp hx) ▸ hline) (by simp) b hb'
    · rw [if_neg h1] at hb
      by_cases h3 : (List.isEmpty (goTrimSpace l) || goContains tenCommas (goTrimSpace l)) = true
      · rw [if_pos h3] at hb
        exact ih cur hnl' hcur htail b hb
      · rw [if_neg h3] at hb
        by_cases h2 : List.isEmpty cur = true
        · rw [if_pos h2] at hb
          exact ih cur hnl' hcur htail b hb
        · rw [if_neg h2] at hb
          have hcne : cur ≠ [] := fun hnil => h2 (by simp [hnil])
          refine ih (cur ++ [goTrimSpace l]) hnl' ?_ ?_ b hb
          · intro x hx
            rcases List.mem_append.mp hx with hx' | hx'
            · exact hcur x hx'
            · exact (List.mem_singleton.mp hx') ▸ hline
          · intro x hx
            rw [List.tail_append_singleton_of_ne_nil hcne] at hx
            rcases List.mem_append.mp hx with hx' | hx'
            · exact htail x hx'
            · rcases List.mem_singleton.mp hx' with rfl
              intro hnil
              rw [hnil] at h3
              simp at h3

theorem divScan_ok_blocks (ls : List GoStr) :
    ∀ cur acc rs, divScan cur acc ls = .ok rs →
      ∀ b ∈ blocksFrom cur ls, ∃ r, ParseRound (goJoin b "\n".toList) = .ok r := by
  induction ls with
  | nil =>
    intro cur acc rs h b hb
    unfold divScan at h
    unfold blocksFrom at hb
    by_cases hc : List.isEmpty cur = true
    · rw [if_pos hc] at hb
      simp at hb
    · rw [if_neg hc] at h hb
      rcases List.mem_singleton.mp hb with rfl
      cases hpr : ParseRound (goJoin b "\n".toList) with
      | error e =>
        rw [hpr] at h
        cases h
      | ok r => exact ⟨r, rfl⟩
  | cons l rest ih =>
    intro cur acc rs h b hb
    simp only [divScan] at h
    simp only [blocksFrom] at hb
    by_cases h1 : isHeaderLine (goTrimSpace l) = true
    · rw [if_pos h1] at h hb
      by_cases h2 : List.isEmpty cur = true
      · rw [if_pos h2] at h hb
        exact ih _ _ _ h b hb
      · rw [if_neg h2] at h hb
        cases hpr : ParseRound (goJoin cur "\n".toList) with
        | error e =>
          rw [hpr] at h
          cases h
        | ok r =>
          rw [hpr] at h
          rcases List.mem_cons.mp hb with rfl | hb'
          · exact ⟨r, hpr⟩
          · exact ih _ _ _ h b hb'
    · rw [if_neg h1] at h hb
      by_cases h3 : (List.isEmpty (goTrimSpace l) || goContains tenCommas (goTrimSpace l)) = true
      · rw [if_pos h3] at h hb
        exact ih _ _ _ h b hb
      · rw [if_neg h3] at h hb
        by_cases h2 : List.isEmpty cur = true
        · rw [if_pos h2] at h hb
          exact ih _ _ _ h b hb
        · rw [if_neg h2] at h hb
          exact ih _ _ _ h b hb


/-- C6 (amended): a malformed match row is reported as a structured error
value.  (a) `ParseMatch` on a CSV-readable row returns the documented error
when the row has fewer than 10 fields or a non-integer id / home-score /
away-score field.  (b) Transitively, if such a row is one of the lines the
scanner actually collects into a round block (a non-blank, non-separator line
below a round header), the whole `ParseDivision` returns an error value —
and hence, being an `Except`, carries no `Division` at all.  (The original
claim is too strong: a sub-10-field row whose raw line contains the ten-comma
separator run is silently skipped and `ParseDivision` still succeeds; see the
counterexample.) -/
theorem malformed_collected_row_fails_whole_parse :
    (∀ l recs, readCSVLine l = .ok recs →
      ((recs.length < 10 → ParseMatch l = .error (.fieldCount recs.length)) ∧
       (¬ recs.length < 10 → goAtoi (recs.getD 0 []) = none →
         ParseMatch l = .error .invalidMatchID) ∧
       (¬ recs.length < 10 → ∀ i₀, goAtoi (recs.getD 0 []) = some i₀ →
         goAtoi (recs.getD 2 []) = none →
         ParseMatch l = .error .invalidHomeScore) ∧
       (¬ recs.length < 10 → ∀ i₀ h₀, goAtoi (recs.getD 0 []) = some i₀ →
         goAtoi (recs.getD 2 []) = some h₀ → goAtoi (recs.getD 3 []) = none →
         ParseMatch l = .error .invalidAwayScore))) ∧
    (∀ text b l, b ∈ blocksFrom [] (goSplit "\n".toList text) → l ∈ b.tail →
      (∃ e, ParseMatch l = .error e) →
      ∃ e', ParseDivision text = .error e') := by
  constructor
  · intro l recs hcsv
    refine ⟨?_, ?_, ?_, ?_⟩
    · intro hlt
      unfold ParseMatch
      rw [hcsv]
      dsimp only
      rw [if_pos hlt]
    · intro hge h0
      unfold ParseMatch
      rw [hcsv]
      dsimp only
      rw [if_neg hge, h0]
    · intro hge i₀ h0 h2
      unfold ParseMatch
      rw [hcsv]
      dsimp only
      rw [if_neg hge, h0, h2]
    · intro hge i₀ h₀ h0 h2 h3
      unfold ParseMatch
      rw [hcsv]
      dsimp only
      rw [if_neg hge, h0, h2, h3]
  · intro text b l hb hl herr
    have hnl : ∀ x ∈ goSplit "\n".toList text, ('\n' : Char) ∉ x := by
      rw [show ("\n".toList : GoStr) = ['\n'] from rfl]
      exact goSplit_single_not_mem '\n' text
    obtain ⟨hbne, hmemprop, htailne⟩ :=
      blocksFrom_inv (goSplit "\n".toList text) [] hnl (by simp) (by simp) b hb
    obtain ⟨l0, bs, rfl⟩ : ∃ l0 bs, b = l0 :: bs := by
      cases b with
      | nil => exact absurd rfl hbne
      | cons a t => exact ⟨a, t, rfl⟩
    have hlb : l ∈ l0 :: bs := List.mem_cons_of_mem _ hl
    have htriml : goTrimSpace l = l := (hmemprop l hlb).1
    have herr' : ∃ e, ParseMatch (goTrimSpace l) = .error e := by
      rw [htriml]; exact herr
    have hne' : goTrimSpace l ≠ [] := by
      rw [htriml]; exact htailne l hl
    have hnlb : ∀ x ∈ l0 :: bs, ('\n' : Char) ∉ x := fun x hx => (hmemprop x hx).2
    obtain ⟨e', hpr⟩ := ParseRound_error_of_bad_line l0 bs l hnlb hl hne' herr'
    unfold ParseDivision
    cases hscan : divScan [] [] (goSplit "\n".toList text) with
    | error e => exact ⟨e, rfl⟩
    | ok rs =>
      obtain ⟨r, hok⟩ :=
        divScan_ok_blocks (goSplit "\n".toList text) [] [] rs hscan (l0 :: bs) hb
      rw [hpr] at hok
      cases hok

/-- Counterexample to C6 as stated: `c6Text` contains the match row
`sepRunRow`, which the CSV reader parses as a single field (fewer than 10
fields, so `ParseMatch` rejects it), yet `ParseDivision` succeeds and returns
a fully populated division, because the raw line contains the ten-comma
separator run and is silently skipped by the scanner. -/
theorem c6_counterexample_sep_run_row :
    ParseMatch sepRunRow = .error (.fieldCount 1) ∧
    ParseDivision c6Text = .ok c6ParsedDivision ∧
    c6ParsedDivision.Rounds.length = 1 ∧
    (c6ParsedDivision.Rounds.getD 0 defaultRound).Matches.length = 1 :=
  ⟨rfl, rfl, rfl, rfl⟩

/-- Witness for the amended C6 on concrete data: the 4-field row `c6BadRow`
is rejected by `ParseMatch` with a field-count error, and since it sits
inside the single round block of `c6BadText`, the whole `ParseDivision`
fails. -/
theorem malformed_collected_row_witness :
    ParseMatch c6BadRow = .error (.fieldCount 4) ∧
    (∃ e', ParseDivision c6BadText = .error e') :=
  ⟨(malformed_collected_row_fails_whole_parse.1 c6BadRow
      ["1".toList, "h".toList, "2".toList, "3".toList] rfl).1 (by decide),
   malformed_collected_row_fails_whole_parse.2 c6BadText
      ["Duelo,Fecha 1,,,,5/8".toList, c6BadRow] c6BadRow (by decide) (by decide)
      ⟨.fieldCount 4, rfl⟩⟩

end Carca
